import Mathlib

/-!
# liblightmodbus master engine: request envelopes and response parsing

A shallow embedding of `include/lightmodbus/master.impl.h`.

Conventions of the embedding

* A byte buffer is a `List Nat`; a C byte is a natural number below 256.
* Machine integers are naturals; every place where the C code narrows a value
  (16-bit size arithmetic, the 8-bit PDU length parameters) carries an explicit
  `% 65536` or `% 256` at the place where the C conversion happens.
* A `(pointer, length)` pair handed to `modbusParseResponsePDU` and on to a
  handler is the list of the `length` bytes found at `pointer` (`pduView`),
  together with the length itself.
* Calls through function pointers made by the engine (exception callback,
  dispatch handlers) are recorded in a trace of `Call` values returned next to
  the result code.
-/

namespace Lightmodbus

/-! ## Parts of the library that live outside `master.impl.h` -/

/-- Modelled from the spec: the `ModbusError` enumeration (declared in
`base.h`), with the result codes of the error taxonomy. -/
inductive ModbusError where
  | MODBUS_OK
  | MODBUS_ERROR_ALLOC
  | MODBUS_ERROR_LENGTH
  | MODBUS_ERROR_CRC
  | MODBUS_ERROR_ADDRESS
  | MODBUS_ERROR_FUNCTION
  | MODBUS_ERROR_BAD_PROTOCOL
  | MODBUS_ERROR_BAD_TRANSACTION
  deriving DecidableEq, Repr

open ModbusError

/-- Modelled from the spec: `modbusRLE`, reading a 16-bit little-endian value (low byte
first) at offset `i` of a buffer. -/
def modbusRLE (p : List Nat) (i : Nat) : Nat :=
  p.getD i 0 + 256 * p.getD (i + 1) 0

/-- Modelled from the spec: `modbusWLE`, writing a 16-bit value little-endian (low byte
first) at offset `i` of a buffer. -/
def modbusWLE (p : List Nat) (i : Nat) (val : Nat) : List Nat :=
  (p.set i (val % 256)).set (i + 1) (val / 256 % 256)

/-- Modelled from the spec: `modbusRBE`, reading a 16-bit big-endian value (high byte
first) at offset `i` of a buffer. -/
def modbusRBE (p : List Nat) (i : Nat) : Nat :=
  256 * p.getD i 0 + p.getD (i + 1) 0

/-- Modelled from the spec: `modbusWBE`, writing a 16-bit value big-endian (high byte
first) at offset `i` of a buffer. -/
def modbusWBE (p : List Nat) (i : Nat) (val : Nat) : List Nat :=
  (p.set i (val / 256 % 256)).set (i + 1) (val % 256)

/-- Modelled from the spec: one bit step of the Modbus CRC16 register (reflected
polynomial `0xA001`): shift right, and xor the polynomial in when the bit shifted
out was set. -/
def crcShift (crc : Nat) : Nat :=
  if crc &&& 0x0001 ≠ 0 then (crc >>> 1) ^^^ 0xA001 else crc >>> 1

/-- Modelled from the spec: the Modbus CRC16 register update for one data byte: xor the
byte into the low half of the register, then eight bit steps. -/
def crcByte (crc : Nat) (b : Nat) : Nat :=
  crcShift^[8] (crc ^^^ b)

/-- Modelled from the spec: `modbusCRC`, the Modbus CRC16 (initial value `0xFFFF`) of the
first `length` bytes of `data`. -/
def modbusCRC (data : List Nat) (length : Nat) : Nat :=
  (data.take length).foldl crcByte 0xFFFF

/-! ## Data model -/

/-- The `request` member of `ModbusMaster`. `data` is the allocated buffer (`none` is the
null pointer); `pdu` is the position of the `pdu` pointer counted from `data` (`none` is
the null pointer). -/
structure ModbusMasterRequest where
  data : Option (List Nat)
  pdu : Option Nat
  length : Nat
  padding : Nat
  pduOffset : Nat

/-- An entry of the dispatch table: a function code and the parsing function for it. The
parsing function receives the function code and the two PDU views with their lengths
(the engine pointer it also receives in C is not interpreted by the engine). -/
structure ModbusMasterFunctionHandler where
  id : Nat
  ptr : Nat → List Nat → Nat → List Nat → Nat → ModbusError

/-- The allocator capability: from the buffer currently held and the requested size (a
16-bit value) to a result code and the buffer pointer it leaves behind. -/
abbrev ModbusMasterAllocator := Option (List Nat) → Nat → ModbusError × Option (List Nat)

/-- The engine state `ModbusMaster`. Callbacks are identified by a number; an absent
exception callback is `none`. The dispatch table is the list `functions`, whose length is
`functionCount`. -/
structure ModbusMaster where
  allocator : ModbusMasterAllocator
  dataCallback : Nat
  exceptionCallback : Option Nat
  functions : List ModbusMasterFunctionHandler
  context : Option Nat
  request : ModbusMasterRequest

/-- A call made by the engine through a function pointer of the engine state. -/
inductive Call where
  | exceptionCallback (address function code : Nat)
  | handler (index function : Nat) (request : List Nat) (requestLength : Nat)
      (response : List Nat) (responseLength : Nat)
  deriving DecidableEq, Repr

/-- The `length` bytes found at `frame + offset`. -/
def pduView (frame : List Nat) (offset length : Nat) : List Nat :=
  (frame.drop offset).take length

/-! ## Request buffer lifecycle -/

/-- The pointer `data + offset`: `offset` bytes into the buffer when there is one; with a
null `data` the sum is the null pointer for offset 0 and a non-null pointer otherwise. -/
def pointerAdd (data : Option (List Nat)) (offset : Nat) : Option Nat :=
  match data with
  | some _ => some offset
  | none => if offset = 0 then none else some offset

/-- Embedding of `modbusMasterAllocateRequest`. `size` is a `uint16_t`, so the sum with
the padding wraps at 65536. -/
def modbusMasterAllocateRequest (status : ModbusMaster) (pdusize : Nat) :
    ModbusError × ModbusMaster :=
  let size := if pdusize ≠ 0 then (pdusize + status.request.padding) % 65536 else pdusize
  let r := status.allocator status.request.data size
  let err := r.1
  if err = MODBUS_ERROR_ALLOC ∨ size = 0 then
    (err, { status with
      request := { status.request with data := none, pdu := none, length := 0 } })
  else
    (err, { status with
      request := { status.request with
        data := r.2, pdu := pointerAdd r.2 status.request.pduOffset, length := size } })

/-- Embedding of `modbusMasterInit`; the default table (assembled by the preprocessor from
handlers defined elsewhere) is a parameter. -/
def modbusMasterInit (defaultFunctions : List ModbusMasterFunctionHandler)
    (allocator : ModbusMasterAllocator) (dataCallback : Nat)
    (exceptionCallback : Option Nat) : ModbusError × ModbusMaster :=
  (MODBUS_OK,
    { allocator := allocator
      dataCallback := dataCallback
      exceptionCallback := exceptionCallback
      functions := defaultFunctions
      context := none
      request := { data := none, pdu := none, length := 0, padding := 0, pduOffset := 0 } })

/-- Embedding of `modbusMasterDestroy`. -/
def modbusMasterDestroy (status : ModbusMaster) : ModbusMaster :=
  (modbusMasterAllocateRequest status 0).2

/-! ## Transport envelopes -/

/-- Embedding of `modbusBeginRequestPDU`. -/
def modbusBeginRequestPDU (status : ModbusMaster) : ModbusMaster :=
  { status with request := { status.request with pduOffset := 0, padding := 0 } }

/-- Embedding of `modbusEndRequestPDU`. -/
def modbusEndRequestPDU (status : ModbusMaster) (err : ModbusError) :
    ModbusError × ModbusMaster :=
  (err, status)

/-- Embedding of `modbusBeginRequestRTU`. -/
def modbusBeginRequestRTU (status : ModbusMaster) : ModbusMaster :=
  { status with request := { status.request with pduOffset := 1, padding := 3 } }

/-- Embedding of `modbusEndRequestRTU`. -/
def modbusEndRequestRTU (status : ModbusMaster) (address : Nat) (err : ModbusError) :
    ModbusError × ModbusMaster :=
  if err ≠ MODBUS_OK then (err, status)
  else if status.request.length < 4 then (MODBUS_ERROR_LENGTH, status)
  else
    let stamp := fun (data : List Nat) =>
      let data := data.set 0 address
      let crc := modbusCRC data (status.request.length - 2)
      modbusWLE data (status.request.length - 2) crc
    (MODBUS_OK,
      { status with request := { status.request with data := status.request.data.map stamp } })

/-- Embedding of `modbusBeginRequestTCP`. -/
def modbusBeginRequestTCP (status : ModbusMaster) : ModbusMaster :=
  { status with request := { status.request with pduOffset := 0, padding := 7 } }

/-- Embedding of `modbusEndRequestTCP`. -/
def modbusEndRequestTCP (status : ModbusMaster) (transaction unit : Nat)
    (err : ModbusError) : ModbusError × ModbusMaster :=
  if err ≠ MODBUS_OK then (err, status)
  else if status.request.length < 7 then (MODBUS_ERROR_LENGTH, status)
  else
    let length := status.request.length - 6
    let stamp := fun (data : List Nat) =>
      let data := modbusWBE data 0 transaction
      let data := modbusWBE data 2 0
      let data := modbusWBE data 4 length
      data.set 6 unit
    (MODBUS_OK,
      { status with request := { status.request with data := status.request.data.map stamp } })

/-- Byte-by-byte copy of `bytes` to position `offset` of `data`. -/
def writeBytes (data : List Nat) (offset : Nat) : List Nat → List Nat
  | [] => data
  | b :: bs => writeBytes (data.set offset b) (offset + 1) bs

/-- Modelled from the spec: the external PDU-building routine that runs between Begin and
End. It only sees the `pdu` view and writes the PDU bytes there. -/
def writePDU (status : ModbusMaster) (p : List Nat) : ModbusMaster :=
  match status.request.data, status.request.pdu with
  | some data, some offset =>
    { status with request := { status.request with data := some (writeBytes data offset p) } }
  | _, _ => status

/-! ## Response parsing -/

/-- The dispatch loop of `modbusParseResponsePDU`: `i` is the loop counter and `functions`
the part of the table from index `i` on. -/
def dispatchLoop (functions : List ModbusMasterFunctionHandler) (i : Nat) (function : Nat)
    (request : List Nat) (requestLength : Nat) (response : List Nat) (responseLength : Nat) :
    ModbusError × List Call :=
  match functions with
  | [] => (MODBUS_ERROR_FUNCTION, [])
  | h :: rest =>
    if function = h.id then
      (h.ptr function request requestLength response responseLength,
        [Call.handler i function request requestLength response responseLength])
    else dispatchLoop rest (i + 1) function request requestLength response responseLength

/-- Embedding of `modbusParseResponsePDU`. `requestLength` and `responseLength` are the
values held by the `uint8_t` parameters; the conversion of a wider argument to `uint8_t`
belongs to the call and is written out in the callers. The result is the result code
together with the calls made. -/
def modbusParseResponsePDU (status : ModbusMaster) (address : Nat)
    (request : List Nat) (requestLength : Nat)
    (response : List Nat) (responseLength : Nat) : ModbusError × List Call :=
  if requestLength = 0 ∨ responseLength = 0 then (MODBUS_ERROR_LENGTH, [])
  else
    let function := response.getD 0 0
    if function &&& 0x80 ≠ 0 ∧ responseLength = 2 then
      (MODBUS_OK,
        match status.exceptionCallback with
        | some _ => [Call.exceptionCallback address (function &&& 0x7f) (response.getD 1 0)]
        | none => [])
    else if function ≠ request.getD 0 0 then (MODBUS_ERROR_FUNCTION, [])
    else dispatchLoop status.functions 0 function request requestLength response responseLength

/-- The C call `modbusParseResponsePDU(status, address, request, requestLength, response,
responseLength)` made on a request PDU and a response PDU with length arguments of any
integer width: each length is converted to the `uint8_t` parameter type, and the function
is given that many bytes at each pointer. -/
def callParseResponsePDU (status : ModbusMaster) (address : Nat)
    (request : List Nat) (requestLength : Nat)
    (response : List Nat) (responseLength : Nat) : ModbusError × List Call :=
  modbusParseResponsePDU status address
    (request.take (requestLength % 256)) (requestLength % 256)
    (response.take (responseLength % 256)) (responseLength % 256)

/-- Embedding of `modbusParseResponseRTU`. The lengths handed to `modbusParseResponsePDU`
are converted to `uint8_t` at the call. -/
def modbusParseResponseRTU (status : ModbusMaster)
    (request : List Nat) (requestLength : Nat)
    (response : List Nat) (responseLength : Nat) : ModbusError × List Call :=
  if requestLength < 4 ∨ responseLength < 4 then (MODBUS_ERROR_LENGTH, [])
  else
    let requestCRC := modbusCRC request (requestLength - 2)
    if requestCRC ≠ modbusRLE request (requestLength - 2) then (MODBUS_ERROR_CRC, [])
    else
      let responseCRC := modbusCRC response (responseLength - 2)
      if responseCRC ≠ modbusRLE response (responseLength - 2) then (MODBUS_ERROR_CRC, [])
      else
        let address := request.getD 0 0
        if address = 0 ∨ request.getD 0 0 ≠ response.getD 0 0 then (MODBUS_ERROR_ADDRESS, [])
        else
          modbusParseResponsePDU status address
            (pduView request 1 ((requestLength - 3) % 256)) ((requestLength - 3) % 256)
            (pduView response 1 ((responseLength - 3) % 256)) ((responseLength - 3) % 256)

/-- Embedding of `modbusParseResponseTCP`. The lengths handed to `modbusParseResponsePDU`
are converted to `uint8_t` at the call. -/
def modbusParseResponseTCP (status : ModbusMaster)
    (request : List Nat) (requestLength : Nat)
    (response : List Nat) (responseLength : Nat) : ModbusError × List Call :=
  if requestLength < 8 ∨ responseLength < 8 then (MODBUS_ERROR_LENGTH, [])
  else if modbusRBE request 2 ≠ 0 ∨ modbusRBE response 0 ≠ 0 then
    (MODBUS_ERROR_BAD_PROTOCOL, [])
  else if modbusRBE request 0 ≠ modbusRBE response 0 then (MODBUS_ERROR_BAD_TRANSACTION, [])
  else if modbusRBE request 4 ≠ requestLength - 6 ∨ modbusRBE response 4 ≠ responseLength - 6
  then (MODBUS_ERROR_LENGTH, [])
  else
    let address := response.getD 6 0
    modbusParseResponsePDU status address
      (pduView request 7 ((requestLength - 7) % 256)) ((requestLength - 7) % 256)
      (pduView response 7 ((responseLength - 7) % 256)) ((responseLength - 7) % 256)

/-! ## The request buffer invariant and sequences of operations -/

/-- The allocator contract: size 0 releases the buffer and reports success with no
buffer; any other size either yields a buffer of at least that size or fails with
`MODBUS_ERROR_ALLOC`. -/
def AllocatorHonoursContract (allocator : ModbusMasterAllocator) : Prop :=
  ∀ old size,
    (size = 0 → allocator old size = (MODBUS_OK, none)) ∧
    (size ≠ 0 →
      (∃ buf, allocator old size = (MODBUS_OK, some buf) ∧ size ≤ buf.length) ∨
      (allocator old size).1 = MODBUS_ERROR_ALLOC)

/-- The request buffer invariant: with the buffer present, `pdu` is `data + pduOffset` and
`length` is the size of a non-empty PDU plus the padding; with the buffer absent, `pdu` is
absent and `length` is 0. -/
def RequestInvariant (r : ModbusMasterRequest) : Prop :=
  match r.data with
  | some _ => r.pdu = some r.pduOffset ∧ ∃ pduSize, 0 < pduSize ∧ r.length = pduSize + r.padding
  | none => r.pdu = none ∧ r.length = 0

/-- An operation of the engine on its request buffer, with its arguments. -/
inductive Op where
  | allocateRequest (pdusize : Nat)
  | beginRequestPDU
  | beginRequestRTU
  | beginRequestTCP
  | endRequestPDU (err : ModbusError)
  | endRequestRTU (address : Nat) (err : ModbusError)
  | endRequestTCP (transaction unit : Nat) (err : ModbusError)
  | destroy

/-- The engine state after one operation. -/
def applyOp (status : ModbusMaster) : Op → ModbusMaster
  | Op.allocateRequest pdusize => (modbusMasterAllocateRequest status pdusize).2
  | Op.beginRequestPDU => modbusBeginRequestPDU status
  | Op.beginRequestRTU => modbusBeginRequestRTU status
  | Op.beginRequestTCP => modbusBeginRequestTCP status
  | Op.endRequestPDU err => (modbusEndRequestPDU status err).2
  | Op.endRequestRTU address err => (modbusEndRequestRTU status address err).2
  | Op.endRequestTCP transaction unit err =>
    (modbusEndRequestTCP status transaction unit err).2
  | Op.destroy => modbusMasterDestroy status

/-- The engine state after a sequence of operations. -/
def runOps (status : ModbusMaster) (ops : List Op) : ModbusMaster :=
  ops.foldl applyOp status

/-- An operation is in order in a state when a Begin finds no buffer held and an
allocation stays within the 16-bit size. -/
def Op.inOrder (status : ModbusMaster) : Op → Prop
  | Op.allocateRequest pdusize => pdusize + status.request.padding ≤ 65535
  | Op.beginRequestPDU => status.request.data = none
  | Op.beginRequestRTU => status.request.data = none
  | Op.beginRequestTCP => status.request.data = none
  | _ => True

/-- Every operation of the sequence is in order in the state it is applied to. -/
def opsInOrder (status : ModbusMaster) : List Op → Prop
  | [] => True
  | op :: ops => op.inOrder status ∧ opsInOrder (applyOp status op) ops

/-! ## Calls and buffer reads of the parsing functions -/

/-- The number of exception callback calls in a trace. -/
def exceptionCalls : List Call → Nat
  | [] => 0
  | Call.exceptionCallback _ _ _ :: rest => exceptionCalls rest + 1
  | Call.handler _ _ _ _ _ _ :: rest => exceptionCalls rest

/-- The engine state after a parsing call. The parsing functions never write to the
engine state themselves; it can change only through the calls they make, each of which
receives the engine pointer. `effect` is what a call does to the state. -/
def stateAfter (effect : Call → ModbusMaster → ModbusMaster) (status : ModbusMaster)
    (calls : List Call) : ModbusMaster :=
  calls.foldl (fun s c => effect c s) status

/-- The buffer positions read by `modbusCRC data length` followed by
`modbusRLE (data + length)`. -/
def crcCheckReads (length : Nat) : List Nat :=
  List.range length ++ [length, length + 1]

/-- Embedding of `modbusParseResponsePDU` that also records the positions it reads, first
of `request`, then of `response` (the reads made by handlers are their own). -/
def tracedParseResponsePDU (status : ModbusMaster) (address : Nat)
    (request : List Nat) (requestLength : Nat)
    (response : List Nat) (responseLength : Nat) :
    (ModbusError × List Call) × (List Nat × List Nat) :=
  if requestLength = 0 ∨ responseLength = 0 then ((MODBUS_ERROR_LENGTH, []), ([], []))
  else
    let function := response.getD 0 0
    if function &&& 0x80 ≠ 0 ∧ responseLength = 2 then
      match status.exceptionCallback with
      | some _ =>
        ((MODBUS_OK, [Call.exceptionCallback address (function &&& 0x7f) (response.getD 1 0)]),
          ([], [0, 1]))
      | none => ((MODBUS_OK, []), ([], [0]))
    else if function ≠ request.getD 0 0 then ((MODBUS_ERROR_FUNCTION, []), ([0], [0]))
    else
      (dispatchLoop status.functions 0 function request requestLength response responseLength,
        ([0], [0]))

/-- Embedding of `modbusParseResponseRTU` that also records the positions it reads, first
of `request`, then of `response`. -/
def tracedParseResponseRTU (status : ModbusMaster)
    (request : List Nat) (requestLength : Nat)
    (response : List Nat) (responseLength : Nat) :
    (ModbusError × List Call) × (List Nat × List Nat) :=
  if requestLength < 4 ∨ responseLength < 4 then ((MODBUS_ERROR_LENGTH, []), ([], []))
  else
    let requestCRC := modbusCRC request (requestLength - 2)
    if requestCRC ≠ modbusRLE request (requestLength - 2) then
      ((MODBUS_ERROR_CRC, []), (crcCheckReads (requestLength - 2), []))
    else
      let responseCRC := modbusCRC response (responseLength - 2)
      if responseCRC ≠ modbusRLE response (responseLength - 2) then
        ((MODBUS_ERROR_CRC, []),
          (crcCheckReads (requestLength - 2), crcCheckReads (responseLength - 2)))
      else
        let address := request.getD 0 0
        if address = 0 then
          ((MODBUS_ERROR_ADDRESS, []),
            (crcCheckReads (requestLength - 2) ++ [0], crcCheckReads (responseLength - 2)))
        else if request.getD 0 0 ≠ response.getD 0 0 then
          ((MODBUS_ERROR_ADDRESS, []),
            (crcCheckReads (requestLength - 2) ++ [0, 0],
              crcCheckReads (responseLength - 2) ++ [0]))
        else
          let r := tracedParseResponsePDU status address
            (pduView request 1 ((requestLength - 3) % 256)) ((requestLength - 3) % 256)
            (pduView response 1 ((responseLength - 3) % 256)) ((responseLength - 3) % 256)
          (r.1,
            (crcCheckReads (requestLength - 2) ++ [0, 0] ++ r.2.1.map (· + 1),
              crcCheckReads (responseLength - 2) ++ [0] ++ r.2.2.map (· + 1)))

/-- Embedding of `modbusParseResponseTCP` that also records the positions it reads, first
of `request`, then of `response`. -/
def tracedParseResponseTCP (status : ModbusMaster)
    (request : List Nat) (requestLength : Nat)
    (response : List Nat) (responseLength : Nat) :
    (ModbusError × List Call) × (List Nat × List Nat) :=
  if requestLength < 8 ∨ responseLength < 8 then ((MODBUS_ERROR_LENGTH, []), ([], []))
  else if modbusRBE request 2 ≠ 0 then ((MODBUS_ERROR_BAD_PROTOCOL, []), ([2, 3], []))
  else if modbusRBE response 0 ≠ 0 then ((MODBUS_ERROR_BAD_PROTOCOL, []), ([2, 3], [0, 1]))
  else if modbusRBE request 0 ≠ modbusRBE response 0 then
    ((MODBUS_ERROR_BAD_TRANSACTION, []), ([2, 3, 0, 1], [0, 1, 0, 1]))
  else if modbusRBE request 4 ≠ requestLength - 6 then
    ((MODBUS_ERROR_LENGTH, []), ([2, 3, 0, 1, 4, 5], [0, 1, 0, 1]))
  else if modbusRBE response 4 ≠ responseLength - 6 then
    ((MODBUS_ERROR_LENGTH, []), ([2, 3, 0, 1, 4, 5], [0, 1, 0, 1, 4, 5]))
  else
    let address := response.getD 6 0
    let r := tracedParseResponsePDU status address
      (pduView request 7 ((requestLength - 7) % 256)) ((requestLength - 7) % 256)
      (pduView response 7 ((responseLength - 7) % 256)) ((responseLength - 7) % 256)
    (r.1,
      ([2, 3, 0, 1, 4, 5] ++ r.2.1.map (· + 7), [0, 1, 0, 1, 4, 5, 6] ++ r.2.2.map (· + 7)))

/-! ## Concrete inputs used by the examples -/

/-- The frame with bit `j` of byte `i` inverted. -/
def flipBit (frame : List Nat) (i j : Nat) : List Nat :=
  frame.set i (frame.getD i 0 ^^^ 2 ^ j)

/-- An allocator that honours its contract: size 0 releases the buffer, any other size
yields a fresh zero-filled buffer of that size. -/
def zeroFillAllocator : ModbusMasterAllocator :=
  fun _ size => (MODBUS_OK, if size = 0 then none else some (List.replicate size 0))

/-- A freshly initialised engine with an empty dispatch table and an exception callback. -/
def sampleMaster : ModbusMaster :=
  (modbusMasterInit [] zeroFillAllocator 0 (some 0)).2

/-- A 259-byte RTU request from address 1: a 256-byte PDU with function code 3, followed
by the CRC trailer `00 00`. -/
def longRequest : List Nat :=
  [1, 3, 64, 33] ++ List.replicate 253 0 ++ [0, 0]

/-- A 5-byte RTU exception response of address 1: PDU `83 02`, CRC trailer `C0 F1`. -/
def exceptionResponse : List Nat := [1, 0x83, 2, 192, 241]

/-- An 8-byte RTU request to address `0x11`: read holding registers, CRC trailer `76 87`. -/
def readRequest : List Nat := [0x11, 3, 0, 0x6B, 0, 3, 118, 135]

/-- A 7-byte RTU response of address `0x11` to `readRequest`, CRC trailer `B9 84`. -/
def readResponse : List Nat := [0x11, 3, 2, 0, 5, 185, 132]

/-- A 7-byte RTU response of address `0x12`, CRC trailer `FD 84`. -/
def strayResponse : List Nat := [0x12, 3, 2, 0, 5, 253, 132]

/-- A handler that accepts every response. -/
def acceptHandler (id : Nat) : ModbusMasterFunctionHandler :=
  ⟨id, fun _ _ _ _ _ => MODBUS_OK⟩

/-- A custom handler for function code 3 that rejects responses shorter than 5 bytes. -/
def customHandler : ModbusMasterFunctionHandler :=
  ⟨3, fun _ _ _ _ responseLength =>
    if responseLength < 5 then MODBUS_ERROR_LENGTH else MODBUS_OK⟩

/-- A freshly initialised engine whose table holds handlers for function codes 3 and 4. -/
def tableMaster : ModbusMaster :=
  (modbusMasterInit [acceptHandler 3, acceptHandler 4] zeroFillAllocator 0 (some 0)).2

/-- An allocator that refuses every request with a result other than
`MODBUS_ERROR_ALLOC` and leaves the buffer pointer as it found it. -/
def refusingAllocator : ModbusMasterAllocator :=
  fun old _ => (MODBUS_ERROR_LENGTH, old)

/-- A 263-byte TCP request: transaction id 0, protocol id 0, length field 257, unit 1 and
a 256-byte PDU with function code 3. -/
def longRequestTCP : List Nat :=
  [0, 0, 0, 0, 1, 1, 1, 3] ++ List.replicate 255 0

/-- A 9-byte TCP exception response of unit 1: PDU `83 02`. -/
def exceptionResponseTCP : List Nat := [0, 0, 0, 0, 0, 3, 1, 0x83, 2]

/-- A 265-byte TCP response of unit 1: length field 259 and a 258-byte PDU that starts
with `83 02`. -/
def longResponseTCP : List Nat :=
  [0, 0, 0, 0, 1, 3, 1, 0x83, 2] ++ List.replicate 256 0

/-- A 12-byte TCP request to unit 1 with transaction id 0: read holding registers. -/
def readRequestTCP : List Nat := [0, 0, 0, 0, 0, 6, 1, 3, 0, 0x6B, 0, 3]

/-- An 11-byte TCP response of unit 1 with transaction id 0 to `readRequestTCP`. -/
def readResponseTCP : List Nat := [0, 0, 0, 0, 0, 5, 1, 3, 2, 0, 5]

/-- An allocator with 8 bytes of memory that honours its contract: size 0 releases the
buffer, a size up to 8 yields a fresh zero-filled buffer, and a larger size fails with
`MODBUS_ERROR_ALLOC`. -/
def smallAllocator : ModbusMasterAllocator :=
  fun _ size =>
    if size = 0 then (MODBUS_OK, none)
    else if size ≤ 8 then (MODBUS_OK, some (List.replicate size 0))
    else (MODBUS_ERROR_ALLOC, none)

/-! ## Facts about the byte-order helpers and the CRC -/

theorem crcShift_lt {c : Nat} (hc : c < 65536) : crcShift c < 65536 := by
  unfold crcShift
  have hs : c >>> 1 < 2 ^ 16 := by
    rw [Nat.shiftRight_eq_div_pow]; omega
  split
  · exact Nat.xor_lt_two_pow hs (by norm_num)
  · exact hs

theorem xor_poly_testBit {q : Nat} (hq : q < 32768) : (q ^^^ 0xA001).testBit 15 = true := by
  have h1 : q.testBit 15 = false := Nat.testBit_lt_two_pow (by simpa using hq)
  have h2 : (0xA001 : Nat).testBit 15 = true := by decide
  rw [Nat.testBit_xor, h1, h2]; rfl

/-- A bit step of the CRC register loses no information on 16-bit values: the bit shifted
out is recorded in bit 15 of the result. -/
theorem crcShift_inj {a b : Nat} (ha : a < 65536) (hb : b < 65536)
    (h : crcShift a = crcShift b) : a = b := by
  unfold crcShift at h
  simp only [Nat.and_one_is_mod, Nat.shiftRight_eq_div_pow, pow_one] at h
  have hqa : a / 2 < 32768 := by omega
  have hqb : b / 2 < 32768 := by omega
  have ta := xor_poly_testBit hqa
  have tb := xor_poly_testBit hqb
  have fa : (a / 2).testBit 15 = false := Nat.testBit_lt_two_pow (by simpa using hqa)
  have fb : (b / 2).testBit 15 = false := Nat.testBit_lt_two_pow (by simpa using hqb)
  split_ifs at h with h1 h2 h2
  · have := Nat.xor_left_injective h
    simp only at this
    omega
  · rw [h] at ta; rw [ta] at fb; cases fb
  · rw [← h] at tb; rw [tb] at fa; cases fa
  · omega

theorem crcShift_iterate_lt (k : Nat) {c : Nat} (hc : c < 65536) : crcShift^[k] c < 65536 := by
  induction k generalizing c with
  | zero => simpa using hc
  | succ k ih => rw [Function.iterate_succ_apply]; exact ih (crcShift_lt hc)

theorem crcShift_iterate_inj (k : Nat) {a b : Nat} (ha : a < 65536) (hb : b < 65536)
    (h : crcShift^[k] a = crcShift^[k] b) : a = b := by
  induction k generalizing a b with
  | zero => simpa using h
  | succ k ih =>
    rw [Function.iterate_succ_apply, Function.iterate_succ_apply] at h
    exact crcShift_inj ha hb (ih (crcShift_lt ha) (crcShift_lt hb) h)

theorem byte_lt_word {b : Nat} (hb : b < 256) : b < 2 ^ 16 := by omega

theorem crcByte_lt {c b : Nat} (hc : c < 65536) (hb : b < 256) : crcByte c b < 65536 :=
  crcShift_iterate_lt 8 (Nat.xor_lt_two_pow (by simpa using hc) (byte_lt_word hb))

theorem crcByte_inj_left {c d b : Nat} (hc : c < 65536) (hd : d < 65536) (hb : b < 256)
    (h : crcByte c b = crcByte d b) : c = d := by
  have h1 : c ^^^ b < 65536 := Nat.xor_lt_two_pow (n := 16) (by simpa using hc) (byte_lt_word hb)
  have h2 : d ^^^ b < 65536 := Nat.xor_lt_two_pow (n := 16) (by simpa using hd) (byte_lt_word hb)
  exact Nat.xor_left_injective (crcShift_iterate_inj 8 h1 h2 h)

theorem crcByte_inj_right {c b e : Nat} (hc : c < 65536) (hb : b < 256) (he : e < 256)
    (h : crcByte c b = crcByte c e) : b = e := by
  have h1 : c ^^^ b < 65536 := Nat.xor_lt_two_pow (n := 16) (by simpa using hc) (byte_lt_word hb)
  have h2 : c ^^^ e < 65536 := Nat.xor_lt_two_pow (n := 16) (by simpa using hc) (byte_lt_word he)
  exact Nat.xor_right_injective (crcShift_iterate_inj 8 h1 h2 h)

theorem foldl_crcByte_lt (l : List Nat) (hl : ∀ b ∈ l, b < 256) {c : Nat} (hc : c < 65536) :
    l.foldl crcByte c < 65536 := by
  induction l generalizing c with
  | nil => simpa using hc
  | cons b t ih =>
    simp only [List.foldl_cons]
    exact ih (fun x hx => hl x (List.mem_cons_of_mem _ hx))
      (crcByte_lt hc (hl b (List.mem_cons_self _ _)))

theorem foldl_crcByte_inj (l : List Nat) (hl : ∀ b ∈ l, b < 256) {c d : Nat}
    (hc : c < 65536) (hd : d < 65536) (h : l.foldl crcByte c = l.foldl crcByte d) : c = d := by
  induction l generalizing c d with
  | nil => simpa using h
  | cons b t ih =>
    simp only [List.foldl_cons] at h
    have hb := hl b (List.mem_cons_self _ _)
    exact crcByte_inj_left hc hd hb
      (ih (fun x hx => hl x (List.mem_cons_of_mem _ hx)) (crcByte_lt hc hb) (crcByte_lt hd hb) h)

/-- The CRC of a byte buffer is a 16-bit value. -/
theorem modbusCRC_lt (data : List Nat) (length : Nat) (hbytes : ∀ b ∈ data, b < 256) :
    modbusCRC data length < 65536 :=
  foldl_crcByte_lt _ (fun b hb => hbytes b (List.mem_of_mem_take hb)) (by norm_num)

theorem xor_two_pow_ne (b j : Nat) : b ^^^ 2 ^ j ≠ b := by
  intro h
  have h2 : b ^^^ 2 ^ j = b ^^^ 0 := by simpa using h
  have h3 := Nat.xor_right_injective h2
  exact absurd h3 (by positivity)

theorem xor_two_pow_lt {b j : Nat} (hb : b < 256) (hj : j < 8) : b ^^^ 2 ^ j < 256 := by
  have h : (2 : Nat) ^ j < 2 ^ 8 := Nat.pow_lt_pow_right (by norm_num) hj
  exact Nat.xor_lt_two_pow (n := 8) (by simpa using hb) h

/-- Replacing one covered byte by a different byte changes the CRC. -/
theorem modbusCRC_set_ne (frame : List Nat) (len i v : Nat)
    (hbytes : ∀ b ∈ frame, b < 256) (hlen : len ≤ frame.length) (hi : i < len)
    (hv : v < 256) (hne : v ≠ frame.getD i 0) :
    modbusCRC (frame.set i v) len ≠ modbusCRC frame len := by
  unfold modbusCRC
  have hil : i < (frame.take len).length := by rw [List.length_take]; omega
  have hbl : ∀ b ∈ frame.take len, b < 256 := fun b hb => hbytes b (List.mem_of_mem_take hb)
  have hget : frame.getD i 0 = (frame.take len)[i] := by
    rw [List.getD_eq_getElem frame 0 (by omega), List.getElem_take]
  rw [List.set_take, List.set_eq_take_cons_drop v hil]
  conv_rhs => rw [← List.take_append_drop i (frame.take len), List.drop_eq_getElem_cons hil]
  simp only [List.foldl_append, List.foldl_cons]
  intro h
  have hpre : List.foldl crcByte 0xFFFF (List.take i (List.take len frame)) < 65536 :=
    foldl_crcByte_lt _ (fun b hb => hbl b (List.mem_of_mem_take hb)) (by norm_num)
  have hb : (frame.take len)[i] < 256 := hbl _ (List.getElem_mem _)
  have hpost : ∀ b ∈ List.drop (i + 1) (List.take len frame), b < 256 :=
    fun b hb => hbl b (List.mem_of_mem_drop hb)
  have h1 := foldl_crcByte_inj _ hpost (crcByte_lt hpre hv) (crcByte_lt hpre hb) h
  have h2 := crcByte_inj_right hpre hv hb h1
  exact hne (by rw [hget]; exact h2)

theorem modbusCRC_flipBit_ne (frame : List Nat) (len i j : Nat)
    (hbytes : ∀ b ∈ frame, b < 256) (hlen : len ≤ frame.length) (hi : i < len) (hj : j < 8) :
    modbusCRC (flipBit frame i j) len ≠ modbusCRC frame len := by
  have hb : frame.getD i 0 < 256 := by
    rw [List.getD_eq_getElem frame 0 (by omega)]; exact hbytes _ (List.getElem_mem _)
  exact modbusCRC_set_ne frame len i _ hbytes hlen hi (xor_two_pow_lt hb hj) (xor_two_pow_ne _ _)

theorem modbusRLE_set_of_lt (frame : List Nat) (i k v : Nat) (h : i < k) :
    modbusRLE (frame.set i v) k = modbusRLE frame k := by
  unfold modbusRLE
  simp only [List.getD_eq_getElem?_getD]
  rw [List.getElem?_set_ne (by omega), List.getElem?_set_ne (by omega)]

theorem foldl_crcByte_zero (k : Nat) : (List.replicate k 0).foldl crcByte 0 = 0 := by
  induction k with
  | zero => rfl
  | succ k ih =>
    rw [List.replicate_succ, List.foldl_cons]
    have h : crcByte 0 0 = 0 := by decide
    rw [h, ih]

theorem longRequest_body_length :
    ([1, 3, 64, 33] ++ List.replicate 253 0 : List Nat).length = 257 := by
  rw [List.length_append, List.length_replicate]; rfl

theorem longRequest_length : longRequest.length = 259 := by
  unfold longRequest
  rw [List.length_append, longRequest_body_length]; rfl

set_option maxRecDepth 100000 in
theorem longRequest_head_crc : List.foldl crcByte 0xFFFF [1, 3, 64, 33] = 0 := by
  decide

theorem longRequest_crc : modbusCRC longRequest 257 = 0 := by
  have ht : List.take 257 longRequest = [1, 3, 64, 33] ++ List.replicate 253 0 := by
    unfold longRequest
    exact List.take_left' longRequest_body_length
  unfold modbusCRC
  rw [ht, List.foldl_append, longRequest_head_crc, foldl_crcByte_zero]

theorem longRequest_trailer : modbusRLE longRequest 257 = 0 := by
  unfold modbusRLE longRequest
  rw [List.getD_eq_getElem?_getD, List.getD_eq_getElem?_getD,
    List.getElem?_append_right (by rw [longRequest_body_length]),
    List.getElem?_append_right (by rw [longRequest_body_length]; omega),
    longRequest_body_length]
  rfl

/-! ## C1: RTU parsing against PDU parsing -/

theorem longRequest_address : longRequest.getD 0 0 = 1 := rfl

theorem exceptionResponse_crc :
    modbusCRC exceptionResponse 3 = modbusRLE exceptionResponse 3 := by
  decide

set_option maxRecDepth 100000 in
theorem readRequest_crc : modbusCRC readRequest 6 = modbusRLE readRequest 6 := by
  decide

set_option maxRecDepth 100000 in
theorem readResponse_crc : modbusCRC readResponse 5 = modbusRLE readResponse 5 := by
  decide

/-- The first `k % 256` bytes of the `k` bytes at `frame + offset` are the `k % 256` bytes
at `frame + offset`. -/
theorem take_pduView (frame : List Nat) (offset k : Nat) :
    (pduView frame offset k).take (k % 256) = pduView frame offset (k % 256) := by
  unfold pduView
  rw [List.take_take, Nat.min_eq_left (Nat.mod_le k 256)]

/-- C1. For every RTU request frame of length `n ≥ 4` and response frame of length
`m ≥ 4`, whatever `n` and `m`, whose trailing little-endian CRC16 fields are correct and
whose address bytes are equal and non-zero, `modbusParseResponseRTU` returns the same
result and makes the same calls as the call of `modbusParseResponsePDU` with that address
on bytes `[1, n-2)` of the request with length `n - 3` and bytes `[1, m-2)` of the response
with length `m - 3`. -/
theorem parseResponseRTU_eq_parseResponsePDU (status : ModbusMaster)
    (request response : List Nat) (n m : Nat)
    (hn : 4 ≤ n) (hm : 4 ≤ m)
    (hcrcRequest : modbusCRC request (n - 2) = modbusRLE request (n - 2))
    (hcrcResponse : modbusCRC response (m - 2) = modbusRLE response (m - 2))
    (haddr : request.getD 0 0 = response.getD 0 0) (hnonzero : request.getD 0 0 ≠ 0) :
    modbusParseResponseRTU status request n response m =
      callParseResponsePDU status (request.getD 0 0)
        (pduView request 1 (n - 3)) (n - 3) (pduView response 1 (m - 3)) (m - 3) := by
  have hlen : ¬(n < 4 ∨ m < 4) := by omega
  have hcheck : ¬(request.getD 0 0 = 0 ∨ request.getD 0 0 ≠ response.getD 0 0) :=
    fun h => h.elim hnonzero (fun h2 => h2 haddr)
  unfold modbusParseResponseRTU callParseResponsePDU
  rw [if_neg hlen, if_neg (not_not.mpr hcrcRequest), if_neg (not_not.mpr hcrcResponse),
    if_neg hcheck, take_pduView, take_pduView]

/-- C1 (witness). An 8-byte request and a 7-byte response of address `0x11` with function
code 3, on the table `[3, 4]`: both sides call the handler at index 0 with the PDUs
`03 00 6B 00 03` and `03 02 00 05`. -/
theorem parseResponseRTU_eq_parseResponsePDU_witness :
    (4 ≤ 8 ∧ 4 ≤ 7 ∧
      modbusCRC readRequest (8 - 2) = modbusRLE readRequest (8 - 2) ∧
      modbusCRC readResponse (7 - 2) = modbusRLE readResponse (7 - 2) ∧
      readRequest.getD 0 0 = readResponse.getD 0 0 ∧ readRequest.getD 0 0 ≠ 0) ∧
    modbusParseResponseRTU tableMaster readRequest 8 readResponse 7 =
      callParseResponsePDU tableMaster (readRequest.getD 0 0)
        (pduView readRequest 1 (8 - 3)) (8 - 3) (pduView readResponse 1 (7 - 3)) (7 - 3) ∧
    callParseResponsePDU tableMaster (readRequest.getD 0 0)
        (pduView readRequest 1 (8 - 3)) (8 - 3) (pduView readResponse 1 (7 - 3)) (7 - 3)
      = (MODBUS_OK, [Call.handler 0 3 [3, 0, 0x6B, 0, 3] 5 [3, 2, 0, 5] 4]) :=
  ⟨⟨by decide, by decide, readRequest_crc, readResponse_crc, rfl, by decide⟩,
    parseResponseRTU_eq_parseResponsePDU tableMaster readRequest readResponse 8 7
      (by decide) (by decide) readRequest_crc readResponse_crc rfl (by decide),
    rfl⟩

/-- A 259-byte request with a correct CRC trailer, answered from the same address: the
length `259 - 3 = 256` of its PDU becomes the 8-bit value 0 at the call of
`modbusParseResponsePDU`, in `modbusParseResponseRTU` as in a direct call, and both
return `MODBUS_ERROR_LENGTH`. -/
theorem parseResponseRTU_long_request :
    longRequest.length = 259 ∧
    modbusCRC longRequest (259 - 2) = modbusRLE longRequest (259 - 2) ∧
    modbusParseResponseRTU sampleMaster longRequest 259 exceptionResponse 5
      = (MODBUS_ERROR_LENGTH, []) ∧
    callParseResponsePDU sampleMaster (longRequest.getD 0 0)
        (pduView longRequest 1 (259 - 3)) (259 - 3)
        (pduView exceptionResponse 1 (5 - 3)) (5 - 3)
      = (MODBUS_ERROR_LENGTH, []) := by
  have h1 : modbusCRC longRequest (259 - 2) = modbusRLE longRequest (259 - 2) := by
    show modbusCRC longRequest 257 = modbusRLE longRequest 257
    rw [longRequest_crc, longRequest_trailer]
  have h2 : callParseResponsePDU sampleMaster (longRequest.getD 0 0)
        (pduView longRequest 1 (259 - 3)) (259 - 3)
        (pduView exceptionResponse 1 (5 - 3)) (5 - 3)
      = (MODBUS_ERROR_LENGTH, []) := by
    unfold callParseResponsePDU modbusParseResponsePDU
    rw [if_pos (Or.inl (by decide))]
  have h3 : modbusCRC exceptionResponse (5 - 2) = modbusRLE exceptionResponse (5 - 2) :=
    exceptionResponse_crc
  have h4 : exceptionResponse.getD 0 0 = 1 := rfl
  refine ⟨longRequest_length, h1, ?_, h2⟩
  unfold modbusParseResponseRTU
  rw [if_neg (by decide), if_neg (not_not.mpr h1), if_neg (not_not.mpr h3)]
  simp only [longRequest_address, h4]
  rw [if_neg (by decide)]
  unfold modbusParseResponsePDU
  rw [if_pos (Or.inl (by decide))]

/-! ## C2: the TCP envelope -/

/-- C2 (the code at the failing input). Begin TCP, allocate for a 2-byte PDU, write the
PDU `03 2A` through the `pdu` view, end with transaction 7 and unit 1. Every call returns
`MODBUS_OK` and the frame has 9 bytes, but `pdu` is `data + 0`: the PDU is written over
bytes 0 and 1, the header is then stamped over bytes 0 to 6, and bytes 7 and 8 still hold
what the allocator left there, not the PDU. -/
theorem endRequestTCP_overwrites_pdu :
    (modbusMasterAllocateRequest (modbusBeginRequestTCP sampleMaster) 2).1 = MODBUS_OK ∧
    (modbusMasterAllocateRequest (modbusBeginRequestTCP sampleMaster) 2).2.request.pdu
      = some 0 ∧
    (writePDU (modbusMasterAllocateRequest (modbusBeginRequestTCP sampleMaster) 2).2
        [0x03, 0x2A]).request.data
      = some [0x03, 0x2A, 0, 0, 0, 0, 0, 0, 0] ∧
    (modbusEndRequestTCP
        (writePDU (modbusMasterAllocateRequest (modbusBeginRequestTCP sampleMaster) 2).2
          [0x03, 0x2A]) 7 1 MODBUS_OK).1 = MODBUS_OK ∧
    (modbusEndRequestTCP
        (writePDU (modbusMasterAllocateRequest (modbusBeginRequestTCP sampleMaster) 2).2
          [0x03, 0x2A]) 7 1 MODBUS_OK).2.request.data
      = some [0x00, 0x07, 0x00, 0x00, 0x00, 0x03, 0x01, 0x00, 0x00] ∧
    (modbusEndRequestTCP
        (writePDU (modbusMasterAllocateRequest (modbusBeginRequestTCP sampleMaster) 2).2
          [0x03, 0x2A]) 7 1 MODBUS_OK).2.request.data
      ≠ some [0x00, 0x07, 0x00, 0x00, 0x00, 0x03, 0x01, 0x03, 0x2A] := by
  refine ⟨rfl, rfl, rfl, rfl, rfl, ?_⟩
  decide

/-! ## C3: transaction ids in TCP parsing -/

/-- C3 (the code at the failing input). Two 8-byte TCP frames with zero protocol ids,
length fields equal to `8 - 6` and transaction ids 0 (request) and 1 (response): the
protocol-id check reads bytes `[0, 2)` of the response, finds the transaction id 1 there
and returns `MODBUS_ERROR_BAD_PROTOCOL`; the transaction-id comparison is never reached. -/
theorem parseResponseTCP_mismatch_reports_bad_protocol :
    modbusRBE [0, 0, 0, 0, 0, 2, 1, 3] 2 = 0 ∧ modbusRBE [0, 1, 0, 0, 0, 2, 1, 3] 2 = 0 ∧
    modbusRBE [0, 0, 0, 0, 0, 2, 1, 3] 4 = 8 - 6 ∧ modbusRBE [0, 1, 0, 0, 0, 2, 1, 3] 4 = 8 - 6 ∧
    modbusRBE [0, 0, 0, 0, 0, 2, 1, 3] 0 ≠ modbusRBE [0, 1, 0, 0, 0, 2, 1, 3] 0 ∧
    modbusParseResponseTCP sampleMaster [0, 0, 0, 0, 0, 2, 1, 3] 8 [0, 1, 0, 0, 0, 2, 1, 3] 8
      = (MODBUS_ERROR_BAD_PROTOCOL, []) := by
  refine ⟨rfl, rfl, rfl, rfl, by decide, rfl⟩

/-! ## C4: declared lengths in TCP parsing -/

/-- C4 (counterexample). A request whose length field (9) differs from `8 - 6` but whose
protocol id is 1: the protocol-id check answers first and the result is
`MODBUS_ERROR_BAD_PROTOCOL`, not `MODBUS_ERROR_LENGTH`. -/
theorem parseResponseTCP_length_mismatch_masked :
    modbusRBE [0, 0, 0, 1, 0, 9, 1, 3] 4 ≠ 8 - 6 ∧
    modbusParseResponseTCP sampleMaster [0, 0, 0, 1, 0, 9, 1, 3] 8 [0, 0, 0, 0, 0, 2, 1, 3] 8
      = (MODBUS_ERROR_BAD_PROTOCOL, []) ∧
    modbusParseResponseTCP sampleMaster [0, 0, 0, 1, 0, 9, 1, 3] 8 [0, 0, 0, 0, 0, 2, 1, 3] 8
      ≠ (MODBUS_ERROR_LENGTH, []) := by
  refine ⟨by decide, rfl, by decide⟩

/-- C4 (amended). For TCP frames whose transaction-id and protocol-id fields are zero, a
length field at offset 4 of the request or of the response that differs from that
frame's length minus 6 yields `MODBUS_ERROR_LENGTH` and no call, whatever the unit ids
and the PDU bytes (and whatever the frame lengths: frames shorter than 8 bytes give the
same result). -/
theorem parseResponseTCP_length_mismatch (status : ModbusMaster)
    (request response : List Nat) (n m : Nat)
    (htransaction : modbusRBE request 0 = 0 ∧ modbusRBE response 0 = 0)
    (hprotocol : modbusRBE request 2 = 0 ∧ modbusRBE response 2 = 0)
    (hlength : modbusRBE request 4 ≠ n - 6 ∨ modbusRBE response 4 ≠ m - 6) :
    modbusParseResponseTCP status request n response m = (MODBUS_ERROR_LENGTH, []) := by
  unfold modbusParseResponseTCP
  by_cases hshort : n < 8 ∨ m < 8
  · rw [if_pos hshort]
  · have hp : ¬(modbusRBE request 2 ≠ 0 ∨ modbusRBE response 0 ≠ 0) :=
      fun h => h.elim (fun h2 => h2 hprotocol.1) (fun h2 => h2 htransaction.2)
    have ht : ¬(modbusRBE request 0 ≠ modbusRBE response 0) :=
      fun h => h (htransaction.1.trans htransaction.2.symm)
    rw [if_neg hshort, if_neg hp, if_neg ht, if_pos hlength]

/-- C4 (witness). The amended statement at a response whose length field is 5 instead of
`8 - 6`. -/
theorem parseResponseTCP_length_mismatch_witness :
    ((modbusRBE [0, 0, 0, 0, 0, 2, 1, 3] 0 = 0 ∧ modbusRBE [0, 0, 0, 0, 0, 5, 9, 3] 0 = 0) ∧
      (modbusRBE [0, 0, 0, 0, 0, 2, 1, 3] 2 = 0 ∧ modbusRBE [0, 0, 0, 0, 0, 5, 9, 3] 2 = 0) ∧
      (modbusRBE [0, 0, 0, 0, 0, 2, 1, 3] 4 ≠ 8 - 6 ∨
        modbusRBE [0, 0, 0, 0, 0, 5, 9, 3] 4 ≠ 8 - 6)) ∧
    modbusParseResponseTCP sampleMaster [0, 0, 0, 0, 0, 2, 1, 3] 8 [0, 0, 0, 0, 0, 5, 9, 3] 8
      = (MODBUS_ERROR_LENGTH, []) :=
  ⟨⟨by decide, by decide, by decide⟩,
    parseResponseTCP_length_mismatch sampleMaster [0, 0, 0, 0, 0, 2, 1, 3]
      [0, 0, 0, 0, 0, 5, 9, 3] 8 8 (by decide) (by decide) (by decide)⟩

/-! ## C5: a flipped bit under the CRC -/

/-- C5. Take an RTU frame of at least 4 bytes whose last 2 bytes are the little-endian
CRC16 of the bytes before them, and invert one bit (`j < 8`) of one covered byte
(`i < length - 2`), leaving the trailer as it is. Then `modbusParseResponseRTU` returns
`MODBUS_ERROR_CRC`, and calls nothing, both when the damaged frame is the request and
when it is the response, the other frame being any frame of at least 4 bytes. -/
theorem parseResponseRTU_flipped_bit (status : ModbusMaster) (frame other : List Nat)
    (i j : Nat)
    (hlen : 4 ≤ frame.length) (hother : 4 ≤ other.length)
    (hbytes : ∀ b ∈ frame, b < 256)
    (hcrc : modbusCRC frame (frame.length - 2) = modbusRLE frame (frame.length - 2))
    (hi : i < frame.length - 2) (hj : j < 8) :
    modbusParseResponseRTU status (flipBit frame i j) frame.length other other.length
      = (MODBUS_ERROR_CRC, []) ∧
    modbusParseResponseRTU status other other.length (flipBit frame i j) frame.length
      = (MODBUS_ERROR_CRC, []) := by
  have hbad : modbusCRC (flipBit frame i j) (frame.length - 2)
      ≠ modbusRLE (flipBit frame i j) (frame.length - 2) := by
    have htrailer : modbusRLE (flipBit frame i j) (frame.length - 2)
        = modbusRLE frame (frame.length - 2) := modbusRLE_set_of_lt _ _ _ _ hi
    rw [htrailer, ← hcrc]
    exact modbusCRC_flipBit_ne frame _ i j hbytes (by omega) hi hj
  constructor
  · unfold modbusParseResponseRTU
    rw [if_neg (by omega), if_pos hbad]
  · unfold modbusParseResponseRTU
    rw [if_neg (by omega)]
    by_cases h : modbusCRC other (other.length - 2) ≠ modbusRLE other (other.length - 2)
    · rw [if_pos h]
    · rw [if_neg h, if_pos hbad]

/-- C5 (witness). Bit 0 of byte 1 of `readRequest` inverted, with `readResponse` as the
other frame. -/
theorem parseResponseRTU_flipped_bit_witness :
    (4 ≤ readRequest.length ∧ 4 ≤ readResponse.length ∧ (∀ b ∈ readRequest, b < 256) ∧
      modbusCRC readRequest (readRequest.length - 2)
        = modbusRLE readRequest (readRequest.length - 2) ∧
      1 < readRequest.length - 2 ∧ 0 < 8) ∧
    (modbusParseResponseRTU sampleMaster (flipBit readRequest 1 0) readRequest.length
        readResponse readResponse.length = (MODBUS_ERROR_CRC, []) ∧
      modbusParseResponseRTU sampleMaster readResponse readResponse.length
        (flipBit readRequest 1 0) readRequest.length = (MODBUS_ERROR_CRC, [])) :=
  ⟨⟨by decide, by decide, by decide, readRequest_crc, by decide, by decide⟩,
    parseResponseRTU_flipped_bit sampleMaster readRequest readResponse 1 0
      (by decide) (by decide) (by decide) readRequest_crc (by decide) (by decide)⟩

/-! ## C6: the address check of RTU parsing -/

/-- C6. For RTU frames of at least 4 bytes with correct CRC trailers,
`modbusParseResponseRTU` returns `MODBUS_ERROR_ADDRESS`, and calls nothing, whenever the
address byte of the response is 0 or differs from the address byte of the request, and
whenever the address byte of the request is 0. -/
theorem parseResponseRTU_address_error (status : ModbusMaster)
    (request response : List Nat) (n m : Nat)
    (hn : 4 ≤ n) (hm : 4 ≤ m)
    (hcrcRequest : modbusCRC request (n - 2) = modbusRLE request (n - 2))
    (hcrcResponse : modbusCRC response (m - 2) = modbusRLE response (m - 2))
    (haddr : response.getD 0 0 = 0 ∨ response.getD 0 0 ≠ request.getD 0 0 ∨
      request.getD 0 0 = 0) :
    modbusParseResponseRTU status request n response m = (MODBUS_ERROR_ADDRESS, []) := by
  have hcheck : request.getD 0 0 = 0 ∨ request.getD 0 0 ≠ response.getD 0 0 := by
    by_cases hz : request.getD 0 0 = 0
    · exact Or.inl hz
    · refine Or.inr (fun heq => ?_)
      rcases haddr with h | h | h
      · exact hz (heq.trans h)
      · exact h heq.symm
      · exact hz h
  unfold modbusParseResponseRTU
  rw [if_neg (by omega), if_neg (not_not.mpr hcrcRequest), if_neg (not_not.mpr hcrcResponse)]
  exact if_pos hcheck

set_option maxRecDepth 100000 in
theorem strayResponse_crc : modbusCRC strayResponse 5 = modbusRLE strayResponse 5 := by
  decide

/-- C6 (witness). A request to address `0x11` answered from address `0x12`. -/
theorem parseResponseRTU_address_error_witness :
    (4 ≤ 8 ∧ 4 ≤ 7 ∧ modbusCRC readRequest (8 - 2) = modbusRLE readRequest (8 - 2) ∧
      modbusCRC strayResponse (7 - 2) = modbusRLE strayResponse (7 - 2) ∧
      (strayResponse.getD 0 0 = 0 ∨ strayResponse.getD 0 0 ≠ readRequest.getD 0 0 ∨
        readRequest.getD 0 0 = 0)) ∧
    modbusParseResponseRTU sampleMaster readRequest 8 strayResponse 7
      = (MODBUS_ERROR_ADDRESS, []) :=
  ⟨⟨by decide, by decide, readRequest_crc, strayResponse_crc, Or.inr (Or.inl (by decide))⟩,
    parseResponseRTU_address_error sampleMaster readRequest strayResponse 8 7
      (by decide) (by decide) readRequest_crc strayResponse_crc
      (Or.inr (Or.inl (by decide)))⟩

/-! ## C7: exception frames -/

set_option maxRecDepth 100000 in
theorem high_bit_set : ∀ f, f < 256 → 128 ≤ f → f &&& 0x80 ≠ 0 := by
  decide

/-- C7. For every address, every non-empty request PDU and every 2-byte response PDU
`[f, e]` whose function byte has its high bit set, `modbusParseResponsePDU` returns
`MODBUS_OK`; with an exception callback registered the calls made are exactly one call of
that callback with `(a, f & 0x7f, e)`, and without one there is no call at all. In neither
case is a dispatch handler called. -/
theorem parseResponsePDU_exception (status : ModbusMaster) (a f e : Nat)
    (request : List Nat) (hrequest : request ≠ []) (hf : 128 ≤ f ∧ f < 256) :
    (modbusParseResponsePDU status a request request.length [f, e] 2).1 = MODBUS_OK ∧
    (status.exceptionCallback.isSome = true →
      (modbusParseResponsePDU status a request request.length [f, e] 2).2
        = [Call.exceptionCallback a (f &&& 0x7f) e]) ∧
    (status.exceptionCallback = none →
      (modbusParseResponsePDU status a request request.length [f, e] 2).2 = []) := by
  have hlen : ¬(request.length = 0 ∨ 2 = 0) := by
    intro h
    rcases h with h | h
    · exact hrequest (List.length_eq_zero.mp h)
    · exact absurd h (by decide)
  have hexc : ([f, e] : List Nat).getD 0 0 &&& 0x80 ≠ 0 ∧ 2 = 2 :=
    ⟨high_bit_set f hf.2 hf.1, rfl⟩
  unfold modbusParseResponsePDU
  rw [if_neg hlen, if_pos hexc]
  refine ⟨rfl, ?_, ?_⟩
  · intro hcb
    cases hs : status.exceptionCallback with
    | none => rw [hs] at hcb; cases hcb
    | some cb => rfl
  · intro hcb
    rw [hcb]

/-- C7 (witness). Response `[0x83, 0x02]` to a request with function code 3: the callback
is called with function 3 and exception code 2. -/
theorem parseResponsePDU_exception_witness :
    (([0x03, 0x00, 0x6B, 0x00, 0x03] : List Nat) ≠ [] ∧ (128 ≤ 0x83 ∧ 0x83 < 256)) ∧
    modbusParseResponsePDU sampleMaster 0x11 [0x03, 0x00, 0x6B, 0x00, 0x03] 5 [0x83, 0x02] 2
      = (MODBUS_OK, [Call.exceptionCallback 0x11 0x03 2]) :=
  ⟨⟨by decide, by decide⟩,
    Prod.ext
      (parseResponsePDU_exception sampleMaster 0x11 0x83 0x02 [0x03, 0x00, 0x6B, 0x00, 0x03]
        (by decide) (by decide)).1
      ((parseResponsePDU_exception sampleMaster 0x11 0x83 0x02 [0x03, 0x00, 0x6B, 0x00, 0x03]
        (by decide) (by decide)).2.1 rfl)⟩

/-! ## C8: dispatch through the table -/

/-- The dispatch loop calls the first entry whose id is the function code, and only it. -/
theorem dispatchLoop_first_match (functions : List ModbusMasterFunctionHandler) :
    ∀ (k i : Nat) (h : ModbusMasterFunctionHandler) (c : Nat)
      (request : List Nat) (requestLength : Nat) (response : List Nat) (responseLength : Nat),
      functions[i]? = some h → h.id = c →
      (∀ j g, j < i → functions[j]? = some g → g.id ≠ c) →
      dispatchLoop functions k c request requestLength response responseLength
        = (h.ptr c request requestLength response responseLength,
            [Call.handler (k + i) c request requestLength response responseLength]) := by
  induction functions with
  | nil => intro k i h c _ _ _ _ hentry; simp at hentry
  | cons g rest ih =>
    intro k i h c request requestLength response responseLength hentry hid hfirst
    cases i with
    | zero =>
      have hg : g = h := by simpa using hentry
      subst hg
      unfold dispatchLoop
      rw [if_pos hid.symm]
      rfl
    | succ i =>
      have hg : g.id ≠ c := hfirst 0 g (Nat.succ_pos i) (by simp)
      unfold dispatchLoop
      rw [if_neg (fun e => hg e.symm)]
      rw [ih (k + 1) i h c request requestLength response responseLength
        (by simpa using hentry) hid
        (fun j g2 hj hg2 => hfirst (j + 1) g2 (Nat.succ_lt_succ hj) (by simpa using hg2))]
      rw [Nat.add_assoc, Nat.add_comm 1 i]

/-- Dispatch of a non-exception response whose function code agrees with the request. -/
theorem parseResponsePDU_dispatch (status : ModbusMaster) (a c i : Nat)
    (h : ModbusMasterFunctionHandler) (request response : List Nat)
    (hrequest : request ≠ []) (hresponse : response ≠ [])
    (hcode : request.getD 0 0 = c ∧ response.getD 0 0 = c)
    (hnormal : ¬(c &&& 0x80 ≠ 0 ∧ response.length = 2))
    (hentry : status.functions[i]? = some h) (hid : h.id = c)
    (hfirst : ∀ j g, j < i → status.functions[j]? = some g → g.id ≠ c) :
    modbusParseResponsePDU status a request request.length response response.length
      = (h.ptr c request request.length response response.length,
          [Call.handler i c request request.length response response.length]) := by
  have hlen : ¬(request.length = 0 ∨ response.length = 0) := by
    intro e
    rcases e with e | e
    · exact hrequest (List.length_eq_zero.mp e)
    · exact hresponse (List.length_eq_zero.mp e)
  unfold modbusParseResponsePDU
  rw [if_neg hlen, hcode.2, if_neg hnormal, if_neg (not_not.mpr hcode.1.symm)]
  rw [dispatchLoop_first_match status.functions 0 i h c request request.length response
    response.length hentry hid hfirst, Nat.zero_add]

/-- C8. For every dispatch table, every non-empty request PDU and non-empty response PDU
that is not an exception frame, both with function code `c`: if the entry `h` at index `i`
has id `c` and no entry before it has, then `modbusParseResponsePDU` calls exactly the
handler of that entry, with `(c, request, requestLength, response, responseLength)`, and
returns its result. Consequently, with a custom entry put in front of the table, the
custom handler is the one called when its id is `c`, and the handler called stays `h` (one
index further down) when its id is not `c`. -/
theorem parseResponsePDU_first_match (status : ModbusMaster) (a c i : Nat)
    (h : ModbusMasterFunctionHandler) (request response : List Nat)
    (hrequest : request ≠ []) (hresponse : response ≠ [])
    (hcode : request.getD 0 0 = c ∧ response.getD 0 0 = c)
    (hnormal : ¬(c &&& 0x80 ≠ 0 ∧ response.length = 2))
    (hentry : status.functions[i]? = some h) (hid : h.id = c)
    (hfirst : ∀ j g, j < i → status.functions[j]? = some g → g.id ≠ c) :
    modbusParseResponsePDU status a request request.length response response.length
      = (h.ptr c request request.length response response.length,
          [Call.handler i c request request.length response response.length]) ∧
    ∀ custom : ModbusMasterFunctionHandler,
      (custom.id = c →
        modbusParseResponsePDU { status with functions := custom :: status.functions } a
            request request.length response response.length
          = (custom.ptr c request request.length response response.length,
              [Call.handler 0 c request request.length response response.length])) ∧
      (custom.id ≠ c →
        modbusParseResponsePDU { status with functions := custom :: status.functions } a
            request request.length response response.length
          = (h.ptr c request request.length response response.length,
              [Call.handler (i + 1) c request request.length response response.length])) := by
  refine ⟨parseResponsePDU_dispatch status a c i h request response hrequest hresponse hcode
    hnormal hentry hid hfirst, fun custom => ⟨fun hc => ?_, fun hc => ?_⟩⟩
  · exact parseResponsePDU_dispatch { status with functions := custom :: status.functions }
      a c 0 custom request response hrequest hresponse hcode hnormal (by simp) hc
      (fun j g hj _ => absurd hj (Nat.not_lt_zero j))
  · refine parseResponsePDU_dispatch { status with functions := custom :: status.functions }
      a c (i + 1) h request response hrequest hresponse hcode hnormal
      (by simpa using hentry) hid (fun j g hj hg => ?_)
    cases j with
    | zero =>
      have hg2 : custom = g := by simpa using hg
      rw [← hg2]; exact hc
    | succ j => exact hfirst j g (Nat.lt_of_succ_lt_succ hj) (by simpa using hg)

theorem tableMaster_no_earlier_entry :
    ∀ j g, j < 1 → tableMaster.functions[j]? = some g → g.id ≠ 4 := by
  intro j g hj hg
  have hj0 : j = 0 := by omega
  subst hj0
  have hg2 : acceptHandler 3 = g := Option.some.inj hg
  rw [← hg2]
  decide

/-- C8 (witness). Table `[3, 4]`, request and response with function code 4: the entry at
index 1 is called; with `customHandler` (id 3) put in front, the same handler is called
for code 4, now from index 2, while a response with code 3 goes to `customHandler` at
index 0 (which rejects it) instead of the table's own handler for 3. -/
theorem parseResponsePDU_first_match_witness :
    (([4, 0, 0, 0, 1] : List Nat) ≠ [] ∧ ([4, 2, 0, 5] : List Nat) ≠ [] ∧
      (([4, 0, 0, 0, 1] : List Nat).getD 0 0 = 4 ∧ ([4, 2, 0, 5] : List Nat).getD 0 0 = 4) ∧
      ¬(4 &&& 0x80 ≠ 0 ∧ ([4, 2, 0, 5] : List Nat).length = 2) ∧
      tableMaster.functions[1]? = some (acceptHandler 4) ∧ (acceptHandler 4).id = 4 ∧
      (∀ j g, j < 1 → tableMaster.functions[j]? = some g → g.id ≠ 4)) ∧
    modbusParseResponsePDU tableMaster 0x11 [4, 0, 0, 0, 1] 5 [4, 2, 0, 5] 4
      = (MODBUS_OK, [Call.handler 1 4 [4, 0, 0, 0, 1] 5 [4, 2, 0, 5] 4]) ∧
    modbusParseResponsePDU
        { tableMaster with functions := customHandler :: tableMaster.functions }
        0x11 [4, 0, 0, 0, 1] 5 [4, 2, 0, 5] 4
      = (MODBUS_OK, [Call.handler 2 4 [4, 0, 0, 0, 1] 5 [4, 2, 0, 5] 4]) ∧
    modbusParseResponsePDU
        { tableMaster with functions := customHandler :: tableMaster.functions }
        0x11 [3, 0, 0x6B, 0, 1] 5 [3, 2, 0, 5] 4
      = (MODBUS_ERROR_LENGTH, [Call.handler 0 3 [3, 0, 0x6B, 0, 1] 5 [3, 2, 0, 5] 4]) :=
  ⟨⟨by decide, by decide, ⟨rfl, rfl⟩, by decide, rfl, rfl, tableMaster_no_earlier_entry⟩,
    (parseResponsePDU_first_match tableMaster 0x11 4 1 (acceptHandler 4)
      [4, 0, 0, 0, 1] [4, 2, 0, 5] (by decide) (by decide) ⟨rfl, rfl⟩ (by decide) rfl rfl
      tableMaster_no_earlier_entry).1,
    ((parseResponsePDU_first_match tableMaster 0x11 4 1 (acceptHandler 4)
      [4, 0, 0, 0, 1] [4, 2, 0, 5] (by decide) (by decide) ⟨rfl, rfl⟩ (by decide) rfl rfl
      tableMaster_no_earlier_entry).2 customHandler).2 (by decide),
    ((parseResponsePDU_first_match tableMaster 0x11 3 0 (acceptHandler 3)
      [3, 0, 0x6B, 0, 1] [3, 2, 0, 5] (by decide) (by decide) ⟨rfl, rfl⟩ (by decide) rfl rfl
      (fun j _ hj _ => absurd hj (Nat.not_lt_zero j))).2 customHandler).1 rfl⟩

/-! ## C9 and C10: allocation and the RTU envelope -/

theorem writeBytes_eq (p : List Nat) : ∀ (data : List Nat) (offset : Nat),
    offset + p.length ≤ data.length →
    writeBytes data offset p = data.take offset ++ p ++ data.drop (offset + p.length) := by
  induction p with
  | nil => intro data offset _; simp [writeBytes]
  | cons b bs ih =>
    intro data offset h
    simp only [List.length_cons] at h
    have hlt : offset < data.length := by omega
    rw [writeBytes, ih (data.set offset b) (offset + 1) (by rw [List.length_set]; omega)]
    rw [List.drop_set_of_lt b data (by omega), List.take_add, List.set_take,
      List.set_eq_of_length_le (by rw [List.length_take]; omega)]
    have h1 : List.take 1 (List.drop offset (data.set offset b)) = [b] := by
      rw [List.drop_set, if_neg (by omega), Nat.sub_self, List.drop_eq_getElem_cons hlt]
      rfl
    rw [h1]
    simp only [List.length_cons, List.append_assoc, List.singleton_append]
    congr 3
    omega

/-- The bytes left by the RTU stamping of a buffer that holds the PDU `p` at offset 1. -/
theorem rtu_stamp (a : Nat) (p buf : List Nat) (hbuf : buf.length = p.length + 3) :
    modbusWLE ((writeBytes buf 1 p).set 0 a) (p.length + 3 - 2)
        (modbusCRC ((writeBytes buf 1 p).set 0 a) (p.length + 3 - 2))
      = a :: p ++ [modbusCRC (a :: p) (p.length + 1) % 256,
          modbusCRC (a :: p) (p.length + 1) / 256 % 256] := by
  rw [writeBytes_eq p buf 1 (by omega)]
  obtain ⟨b0, rest, rfl⟩ : ∃ b0 rest, buf = b0 :: rest := by
    cases buf with
    | nil => simp at hbuf
    | cons b0 rest => exact ⟨b0, rest, rfl⟩
  have hrest : (List.drop (1 + p.length) (b0 :: rest)).length = 2 := by
    rw [List.length_drop, hbuf]; omega
  obtain ⟨x, y, hxy⟩ : ∃ x y, List.drop (1 + p.length) (b0 :: rest) = [x, y] := by
    match hd : List.drop (1 + p.length) (b0 :: rest), hrest with
    | [x, y], _ => exact ⟨x, y, rfl⟩
  rw [hxy]
  have hsub : p.length + 3 - 2 = p.length + 1 := by omega
  rw [hsub]
  have hframe : (List.take 1 (b0 :: rest) ++ p ++ [x, y]).set 0 a = (a :: p) ++ [x, y] := rfl
  rw [hframe]
  have hcrc : modbusCRC ((a :: p) ++ [x, y]) (p.length + 1)
      = modbusCRC (a :: p) (p.length + 1) := by
    unfold modbusCRC
    rw [List.take_append_of_le_length (by simp)]
  rw [hcrc]
  unfold modbusWLE
  rw [List.set_append_right _ _ (by simp), List.set_append_right _ _ (by simp)]
  simp

/-- The state left by an allocation that succeeds without 16-bit wrap-around. -/
theorem allocateRequest_of_success (status : ModbusMaster) (pdusize : Nat) (buf : List Nat)
    (hsize : 0 < pdusize) (hfit : pdusize + status.request.padding ≤ 65535)
    (halloc : status.allocator status.request.data (pdusize + status.request.padding)
      = (MODBUS_OK, some buf)) :
    modbusMasterAllocateRequest status pdusize
      = (MODBUS_OK, { status with
          request := { status.request with
            data := some buf, pdu := some status.request.pduOffset,
            length := pdusize + status.request.padding } }) := by
  have hs : (if pdusize ≠ 0 then (pdusize + status.request.padding) % 65536 else pdusize)
      = pdusize + status.request.padding := by
    rw [if_pos (by omega), Nat.mod_eq_of_lt (by omega)]
  unfold modbusMasterAllocateRequest
  simp only [hs, halloc]
  rw [if_neg (by
    intro h
    rcases h with h | h
    · exact absurd h (by decide)
    · omega)]
  rfl

/-- C9 (counterexample). Begin RTU and allocate for a PDU of 65535 bytes: the 16-bit size
`65535 + 3` wraps to 2, the allocation of 2 bytes succeeds, and `modbusEndRequestRTU`
then returns `MODBUS_ERROR_LENGTH` instead of `MODBUS_OK` (it looks at the length only, so
the bytes written in between play no part). -/
theorem endRequestRTU_after_wrapped_allocation :
    (List.replicate 65535 0).length = 65535 ∧
    (modbusMasterAllocateRequest (modbusBeginRequestRTU sampleMaster) 65535).1 = MODBUS_OK ∧
    (modbusMasterAllocateRequest (modbusBeginRequestRTU sampleMaster) 65535).2.request.data
      = some [0, 0] ∧
    (modbusEndRequestRTU
        (writePDU (modbusMasterAllocateRequest (modbusBeginRequestRTU sampleMaster) 65535).2
          (List.replicate 65535 0)) 0x11 MODBUS_OK).1 = MODBUS_ERROR_LENGTH := by
  refine ⟨List.length_replicate _ _, rfl, rfl, rfl⟩

/-- C9 (amended). For every PDU `p` of length `k` with `1 ≤ k ≤ 65532` and every address
`a`: after `modbusBeginRequestRTU`, an allocation for `k` bytes in which the allocator
succeeds with a buffer of `k + 3` bytes, and the PDU written through the `pdu` view,
`modbusEndRequestRTU a OK` returns `MODBUS_OK` and leaves a frame of `k + 3` bytes: the
address, then `p`, then the CRC16 of those `k + 1` bytes, low byte first. -/
theorem endRequestRTU_frame (status : ModbusMaster) (a : Nat) (p buf : List Nat)
    (hk : 1 ≤ p.length ∧ p.length ≤ 65532)
    (halloc : status.allocator status.request.data (p.length + 3) = (MODBUS_OK, some buf))
    (hbuf : buf.length = p.length + 3) :
    (modbusMasterAllocateRequest (modbusBeginRequestRTU status) p.length).1 = MODBUS_OK ∧
    (modbusEndRequestRTU
        (writePDU (modbusMasterAllocateRequest (modbusBeginRequestRTU status) p.length).2 p)
        a MODBUS_OK).1 = MODBUS_OK ∧
    (modbusEndRequestRTU
        (writePDU (modbusMasterAllocateRequest (modbusBeginRequestRTU status) p.length).2 p)
        a MODBUS_OK).2.request.length = p.length + 3 ∧
    (modbusEndRequestRTU
        (writePDU (modbusMasterAllocateRequest (modbusBeginRequestRTU status) p.length).2 p)
        a MODBUS_OK).2.request.data
      = some (a :: p ++ [modbusCRC (a :: p) (p.length + 1) % 256,
          modbusCRC (a :: p) (p.length + 1) / 256 % 256]) := by
  have hal := allocateRequest_of_success (modbusBeginRequestRTU status) p.length buf
    (by omega) (by show p.length + 3 ≤ 65535; omega) halloc
  rw [hal]
  have hstamp := rtu_stamp a p buf hbuf
  have hlen : ¬(p.length + 3 < 4) := by omega
  refine ⟨rfl, ?_, ?_, ?_⟩
  · simp only [writePDU, modbusBeginRequestRTU, modbusEndRequestRTU]
    rw [if_neg (by decide), if_neg hlen]
  · simp only [writePDU, modbusBeginRequestRTU, modbusEndRequestRTU]
    rw [if_neg (by decide), if_neg hlen]
  · simp only [writePDU, modbusBeginRequestRTU, modbusEndRequestRTU]
    rw [if_neg (by decide), if_neg hlen]
    simp only [Option.map_some']
    rw [hstamp]

set_option maxRecDepth 100000 in
theorem rtu_sample_frame :
    (0x11 :: [1, 2, 3] ++ [modbusCRC (0x11 :: [1, 2, 3]) (([1, 2, 3] : List Nat).length + 1) % 256,
      modbusCRC (0x11 :: [1, 2, 3]) (([1, 2, 3] : List Nat).length + 1) / 256 % 256] : List Nat)
      = [0x11, 1, 2, 3, 21, 185] := by
  decide

/-- C9 (witness). PDU `01 02 03` and address `0x11`: the 6-byte frame
`11 01 02 03 15 B9`. -/
theorem endRequestRTU_frame_witness :
    ((1 ≤ ([1, 2, 3] : List Nat).length ∧ ([1, 2, 3] : List Nat).length ≤ 65532) ∧
      sampleMaster.allocator sampleMaster.request.data (([1, 2, 3] : List Nat).length + 3)
        = (MODBUS_OK, some [0, 0, 0, 0, 0, 0]) ∧
      ([0, 0, 0, 0, 0, 0] : List Nat).length = ([1, 2, 3] : List Nat).length + 3) ∧
    (modbusEndRequestRTU
        (writePDU (modbusMasterAllocateRequest (modbusBeginRequestRTU sampleMaster) 3).2
          [1, 2, 3]) 0x11 MODBUS_OK).2.request.data
      = some [0x11, 1, 2, 3, 21, 185] :=
  ⟨⟨by decide, rfl, rfl⟩,
    (endRequestRTU_frame sampleMaster 0x11 [1, 2, 3] [0, 0, 0, 0, 0, 0]
      (by decide) rfl rfl).2.2.2.trans (congrArg some rtu_sample_frame)⟩

/-- C10 (the code at the failing input). Begin TCP (padding 7) and allocate for a PDU of
65535 bytes: the allocator succeeds, the call returns `MODBUS_OK`, and the buffer is
present with length 6, the sum `65535 + 7` reduced modulo 65536, not 65542. The buffer is
shorter than the PDU it was requested for. -/
theorem allocateRequest_length_wraps :
    (modbusMasterAllocateRequest (modbusBeginRequestTCP sampleMaster) 65535).1 = MODBUS_OK ∧
    (modbusMasterAllocateRequest (modbusBeginRequestTCP sampleMaster) 65535).2.request.data
      = some [0, 0, 0, 0, 0, 0] ∧
    (modbusMasterAllocateRequest (modbusBeginRequestTCP sampleMaster) 65535).2.request.length
      = 6 ∧
    (modbusMasterAllocateRequest (modbusBeginRequestTCP sampleMaster) 65535).2.request.length
      ≠ 65535 + (modbusBeginRequestTCP sampleMaster).request.padding := by
  refine ⟨rfl, rfl, rfl, by decide⟩

/-- Within the 16-bit range the allocation behaves as documented: for every
`pduSize > 0` and every padding and PDU offset with `pduSize + padding ≤ 65535`, when the
allocator succeeds `modbusMasterAllocateRequest pduSize` returns `MODBUS_OK` and leaves
the buffer of the allocator in place, with `length = pduSize + padding` and `pdu` at
`pduOffset` bytes into the buffer; padding and offset are unchanged. -/
theorem allocateRequest_in_range (status : ModbusMaster) (pduSize : Nat) (buf : List Nat)
    (hsize : 0 < pduSize) (hfit : pduSize + status.request.padding ≤ 65535)
    (halloc : status.allocator status.request.data (pduSize + status.request.padding)
      = (MODBUS_OK, some buf)) :
    (modbusMasterAllocateRequest status pduSize).1 = MODBUS_OK ∧
    (modbusMasterAllocateRequest status pduSize).2.request.data = some buf ∧
    (modbusMasterAllocateRequest status pduSize).2.request.length
      = pduSize + status.request.padding ∧
    (modbusMasterAllocateRequest status pduSize).2.request.pdu
      = some status.request.pduOffset ∧
    (modbusMasterAllocateRequest status pduSize).2.request.padding = status.request.padding ∧
    (modbusMasterAllocateRequest status pduSize).2.request.pduOffset
      = status.request.pduOffset := by
  rw [allocateRequest_of_success status pduSize buf hsize hfit halloc]
  exact ⟨rfl, rfl, rfl, rfl, rfl, rfl⟩

/-- Begin TCP and allocate for a 2-byte PDU: 9 bytes, `pdu` at offset 0. -/
theorem allocateRequest_in_range_witness :
    (0 < 2 ∧ 2 + (modbusBeginRequestTCP sampleMaster).request.padding ≤ 65535 ∧
      (modbusBeginRequestTCP sampleMaster).allocator
          (modbusBeginRequestTCP sampleMaster).request.data
          (2 + (modbusBeginRequestTCP sampleMaster).request.padding)
        = (MODBUS_OK, some [0, 0, 0, 0, 0, 0, 0, 0, 0])) ∧
    (modbusMasterAllocateRequest (modbusBeginRequestTCP sampleMaster) 2).2.request.length
      = 9 :=
  ⟨⟨by decide, by decide, rfl⟩,
    (allocateRequest_in_range (modbusBeginRequestTCP sampleMaster) 2
      [0, 0, 0, 0, 0, 0, 0, 0, 0] (by decide) (by decide) rfl).2.2.1⟩

/-! ## C11: allocation failure -/

/-- C11 (counterexample). An allocator that answers `MODBUS_ERROR_LENGTH` and leaves the
buffer pointer null: the result is not `MODBUS_OK`, and `modbusMasterAllocateRequest 5`
returns that error, but it takes the branch of a successful allocation and sets `length`
to 5, not to 0 (`data` and, with PDU offset 0, `pdu` stay null). -/
theorem allocateRequest_other_error_keeps_length :
    ((modbusMasterInit [] refusingAllocator 0 none).2.allocator
        (modbusMasterInit [] refusingAllocator 0 none).2.request.data 5).1 ≠ MODBUS_OK ∧
    (modbusMasterAllocateRequest (modbusMasterInit [] refusingAllocator 0 none).2 5).1
      = MODBUS_ERROR_LENGTH ∧
    (modbusMasterAllocateRequest (modbusMasterInit [] refusingAllocator 0 none).2 5).2.request.data
      = none ∧
    (modbusMasterAllocateRequest (modbusMasterInit [] refusingAllocator 0 none).2 5).2.request.pdu
      = none ∧
    (modbusMasterAllocateRequest (modbusMasterInit [] refusingAllocator 0 none).2 5).2.request.length
      = 5 ∧
    (modbusMasterAllocateRequest (modbusMasterInit [] refusingAllocator 0 none).2 5).2.request.length
      ≠ 0 := by
  refine ⟨by decide, rfl, rfl, rfl, rfl, by decide⟩

/-- C11 (amended). For every engine state and every allocator, whenever the allocator call
made by `modbusMasterAllocateRequest` returns `MODBUS_ERROR_ALLOC`, the function returns
`MODBUS_ERROR_ALLOC` and leaves `data` absent, `pdu` absent and `length` 0. -/
theorem allocateRequest_alloc_failure (status : ModbusMaster) (pdusize : Nat)
    (hfail : (status.allocator status.request.data
      (if pdusize ≠ 0 then (pdusize + status.request.padding) % 65536 else pdusize)).1
        = MODBUS_ERROR_ALLOC) :
    (modbusMasterAllocateRequest status pdusize).1 = MODBUS_ERROR_ALLOC ∧
    (modbusMasterAllocateRequest status pdusize).2.request.data = none ∧
    (modbusMasterAllocateRequest status pdusize).2.request.pdu = none ∧
    (modbusMasterAllocateRequest status pdusize).2.request.length = 0 := by
  unfold modbusMasterAllocateRequest
  simp only []
  rw [if_pos (Or.inl hfail)]
  exact ⟨hfail, rfl, rfl, rfl⟩

/-- C11 (witness). With `smallAllocator`, Begin RTU and an allocation for a 3-byte PDU
leave a 6-byte buffer with `pdu` at offset 1; the following allocation for a 10-byte PDU
asks for 13 bytes, fails with `MODBUS_ERROR_ALLOC`, and the buffer is reset. -/
theorem allocateRequest_alloc_failure_witness :
    ((modbusMasterAllocateRequest
        (modbusBeginRequestRTU (modbusMasterInit [] smallAllocator 0 none).2) 3).2.request.data
      = some [0, 0, 0, 0, 0, 0] ∧
      (modbusMasterAllocateRequest
        (modbusBeginRequestRTU (modbusMasterInit [] smallAllocator 0 none).2) 3).2.request.pdu
      = some 1 ∧
      (modbusMasterAllocateRequest
        (modbusBeginRequestRTU (modbusMasterInit [] smallAllocator 0 none).2) 3).2.request.length
      = 6 ∧
      ((modbusMasterAllocateRequest
          (modbusBeginRequestRTU (modbusMasterInit [] smallAllocator 0 none).2) 3).2.allocator
        (modbusMasterAllocateRequest
          (modbusBeginRequestRTU (modbusMasterInit [] smallAllocator 0 none).2) 3).2.request.data
        (if 10 ≠ 0 then
          (10 + (modbusMasterAllocateRequest
            (modbusBeginRequestRTU
              (modbusMasterInit [] smallAllocator 0 none).2) 3).2.request.padding) % 65536
        else 10)).1 = MODBUS_ERROR_ALLOC) ∧
    (modbusMasterAllocateRequest
        (modbusMasterAllocateRequest
          (modbusBeginRequestRTU (modbusMasterInit [] smallAllocator 0 none).2) 3).2 10).1
      = MODBUS_ERROR_ALLOC ∧
    (modbusMasterAllocateRequest
        (modbusMasterAllocateRequest
          (modbusBeginRequestRTU (modbusMasterInit [] smallAllocator 0 none).2) 3).2
        10).2.request.data = none ∧
    (modbusMasterAllocateRequest
        (modbusMasterAllocateRequest
          (modbusBeginRequestRTU (modbusMasterInit [] smallAllocator 0 none).2) 3).2
        10).2.request.pdu = none ∧
    (modbusMasterAllocateRequest
        (modbusMasterAllocateRequest
          (modbusBeginRequestRTU (modbusMasterInit [] smallAllocator 0 none).2) 3).2
        10).2.request.length = 0 :=
  ⟨⟨rfl, rfl, rfl, rfl⟩,
    allocateRequest_alloc_failure
      (modbusMasterAllocateRequest
        (modbusBeginRequestRTU (modbusMasterInit [] smallAllocator 0 none).2) 3).2 10 rfl⟩

/-! ## C12: releasing the request buffer -/

/-- An allocation of size 0 resets the request buffer, whatever the allocator does. -/
theorem allocateRequest_zero (status : ModbusMaster) :
    (modbusMasterAllocateRequest status 0).2.request
      = { status.request with data := none, pdu := none, length := 0 } := by
  unfold modbusMasterAllocateRequest
  simp

/-- An allocation changes neither the padding nor the PDU offset. -/
theorem allocateRequest_configuration (status : ModbusMaster) (pdusize : Nat) :
    (modbusMasterAllocateRequest status pdusize).2.request.padding = status.request.padding ∧
    (modbusMasterAllocateRequest status pdusize).2.request.pduOffset
      = status.request.pduOffset := by
  unfold modbusMasterAllocateRequest
  simp only []
  split_ifs <;> exact ⟨rfl, rfl⟩

/-- C12. For every `N`, every allocator and every other argument of `modbusMasterInit`:
from the initialised state, `modbusMasterAllocateRequest N` followed by
`modbusMasterAllocateRequest 0` leaves the request buffer as initialised (`data` absent,
`pdu` absent, `length` 0, padding and offset 0), and so does `modbusMasterDestroy` in
place of the second call. -/
theorem allocateRequest_then_release (defaultFunctions : List ModbusMasterFunctionHandler)
    (allocator : ModbusMasterAllocator) (dataCallback : Nat) (exceptionCallback : Option Nat)
    (N : Nat) :
    (modbusMasterAllocateRequest
        (modbusMasterAllocateRequest
          (modbusMasterInit defaultFunctions allocator dataCallback exceptionCallback).2 N).2
        0).2.request
      = (modbusMasterInit defaultFunctions allocator dataCallback exceptionCallback).2.request ∧
    (modbusMasterDestroy
        (modbusMasterAllocateRequest
          (modbusMasterInit defaultFunctions allocator dataCallback exceptionCallback).2 N).2).request
      = (modbusMasterInit defaultFunctions allocator dataCallback exceptionCallback).2.request ∧
    (modbusMasterInit defaultFunctions allocator dataCallback exceptionCallback).2.request
      = { data := none, pdu := none, length := 0, padding := 0, pduOffset := 0 } := by
  have hc := allocateRequest_configuration
    (modbusMasterInit defaultFunctions allocator dataCallback exceptionCallback).2 N
  have hz := allocateRequest_zero (modbusMasterAllocateRequest
    (modbusMasterInit defaultFunctions allocator dataCallback exceptionCallback).2 N).2
  have hreset : (modbusMasterAllocateRequest
        (modbusMasterAllocateRequest
          (modbusMasterInit defaultFunctions allocator dataCallback exceptionCallback).2 N).2
        0).2.request
      = (modbusMasterInit defaultFunctions allocator dataCallback exceptionCallback).2.request := by
    rw [hz]
    cases hr : (modbusMasterAllocateRequest
      (modbusMasterInit defaultFunctions allocator dataCallback exceptionCallback).2 N).2.request
      with
    | mk data pdu length padding pduOffset =>
      rw [hr] at hc
      simp only [modbusMasterInit] at hc ⊢
      obtain ⟨h1, h2⟩ := hc
      subst h1 h2
      rfl
  exact ⟨hreset, hreset, rfl⟩

/-! ## C14: error propagation of the End operations -/

/-- C14. With a non-zero propagated error, each of `modbusEndRequestPDU`,
`modbusEndRequestRTU` and `modbusEndRequestTCP` returns exactly that error and leaves the
whole engine state, request buffer included, as it was, in every state; and
`modbusEndRequestPDU` returns its argument for every error value, `MODBUS_OK` included. -/
theorem endRequest_propagates_error (status : ModbusMaster) (address transaction unit : Nat)
    (err : ModbusError) (herr : err ≠ MODBUS_OK) :
    modbusEndRequestPDU status err = (err, status) ∧
    modbusEndRequestRTU status address err = (err, status) ∧
    modbusEndRequestTCP status transaction unit err = (err, status) ∧
    ∀ e, modbusEndRequestPDU status e = (e, status) := by
  refine ⟨rfl, ?_, ?_, fun e => rfl⟩
  · unfold modbusEndRequestRTU
    rw [if_pos herr]
  · unfold modbusEndRequestTCP
    rw [if_pos herr]

/-- C14 (witness). `MODBUS_ERROR_ALLOC` propagated through the End operations of a freshly
initialised engine, whose buffer is absent. -/
theorem endRequest_propagates_error_witness :
    MODBUS_ERROR_ALLOC ≠ MODBUS_OK ∧
    modbusEndRequestRTU sampleMaster 0x11 MODBUS_ERROR_ALLOC
      = (MODBUS_ERROR_ALLOC, sampleMaster) ∧
    modbusEndRequestTCP sampleMaster 7 1 MODBUS_ERROR_ALLOC
      = (MODBUS_ERROR_ALLOC, sampleMaster) :=
  ⟨by decide,
    (endRequest_propagates_error sampleMaster 0x11 7 1 MODBUS_ERROR_ALLOC (by decide)).2.1,
    (endRequest_propagates_error sampleMaster 0x11 7 1 MODBUS_ERROR_ALLOC (by decide)).2.2.1⟩

/-! ## C15: function code errors -/

theorem dispatchLoop_no_match (functions : List ModbusMasterFunctionHandler) :
    ∀ (k c : Nat) (request : List Nat) (requestLength : Nat) (response : List Nat)
      (responseLength : Nat), (∀ h ∈ functions, h.id ≠ c) →
      dispatchLoop functions k c request requestLength response responseLength
        = (MODBUS_ERROR_FUNCTION, []) := by
  induction functions with
  | nil => intro k c _ _ _ _ _; rfl
  | cons g rest ih =>
    intro k c request requestLength response responseLength hno
    unfold dispatchLoop
    rw [if_neg (fun e => hno g (List.mem_cons_self _ _) e.symm)]
    exact ih (k + 1) c request requestLength response responseLength
      (fun h hh => hno h (List.mem_cons_of_mem _ hh))

/-- C15. For every non-empty request PDU and non-empty response PDU that is not an
exception frame, `modbusParseResponsePDU` returns `MODBUS_ERROR_FUNCTION` and calls
nothing when the function code of the response differs from that of the request, and
also when the codes agree but no entry of the dispatch table has that code. -/
theorem parseResponsePDU_function_error (status : ModbusMaster) (a : Nat)
    (request response : List Nat)
    (hrequest : request ≠ []) (hresponse : response ≠ [])
    (hnormal : ¬(response.getD 0 0 &&& 0x80 ≠ 0 ∧ response.length = 2))
    (hcode : response.getD 0 0 ≠ request.getD 0 0 ∨
      (response.getD 0 0 = request.getD 0 0 ∧
        ∀ h ∈ status.functions, h.id ≠ response.getD 0 0)) :
    modbusParseResponsePDU status a request request.length response response.length
      = (MODBUS_ERROR_FUNCTION, []) := by
  have hlen : ¬(request.length = 0 ∨ response.length = 0) := by
    intro e
    rcases e with e | e
    · exact hrequest (List.length_eq_zero.mp e)
    · exact hresponse (List.length_eq_zero.mp e)
  unfold modbusParseResponsePDU
  rw [if_neg hlen, if_neg hnormal]
  rcases hcode with hne | ⟨heq, hno⟩
  · rw [if_pos hne]
  · rw [if_neg (not_not.mpr heq)]
    exact dispatchLoop_no_match status.functions 0 _ request request.length response
      response.length hno

/-- C15 (witness). With the table `[3, 4]`: a response with code 4 to a request with code
3, and a response with code 5 to a request with code 5. -/
theorem parseResponsePDU_function_error_witness :
    (([3, 0, 0x6B, 0, 3] : List Nat) ≠ [] ∧ ([4, 2, 0, 5] : List Nat) ≠ [] ∧
      ¬(([4, 2, 0, 5] : List Nat).getD 0 0 &&& 0x80 ≠ 0 ∧ ([4, 2, 0, 5] : List Nat).length = 2) ∧
      ([4, 2, 0, 5] : List Nat).getD 0 0 ≠ ([3, 0, 0x6B, 0, 3] : List Nat).getD 0 0) ∧
    modbusParseResponsePDU tableMaster 0x11 [3, 0, 0x6B, 0, 3] 5 [4, 2, 0, 5] 4
      = (MODBUS_ERROR_FUNCTION, []) ∧
    modbusParseResponsePDU tableMaster 0x11 [5, 0, 1, 0xFF, 0] 5 [5, 0, 1, 0xFF, 0] 5
      = (MODBUS_ERROR_FUNCTION, []) :=
  ⟨⟨by decide, by decide, by decide, by decide⟩,
    parseResponsePDU_function_error tableMaster 0x11 [3, 0, 0x6B, 0, 3] [4, 2, 0, 5]
      (by decide) (by decide) (by decide) (Or.inl (by decide)),
    parseResponsePDU_function_error tableMaster 0x11 [5, 0, 1, 0xFF, 0] [5, 0, 1, 0xFF, 0]
      (by decide) (by decide) (by decide)
      (Or.inr ⟨rfl, by
        intro h hh
        have hm : h = acceptHandler 3 ∨ h = acceptHandler 4 := by
          simpa [tableMaster, modbusMasterInit] using hh
        rcases hm with hm | hm <;> rw [hm] <;> decide⟩)⟩

/-! ## C13: the request buffer invariant -/

theorem zeroFillAllocator_honours : AllocatorHonoursContract zeroFillAllocator := by
  intro old size
  constructor
  · intro h
    simp [zeroFillAllocator, h]
  · intro h
    exact Or.inl ⟨List.replicate size 0, by simp [zeroFillAllocator, h], by simp⟩

theorem applyOp_allocator (status : ModbusMaster) (op : Op) :
    (applyOp status op).allocator = status.allocator := by
  cases op with
  | allocateRequest pdusize =>
    simp only [applyOp, modbusMasterAllocateRequest]
    split_ifs <;> rfl
  | beginRequestPDU => rfl
  | beginRequestRTU => rfl
  | beginRequestTCP => rfl
  | endRequestPDU err => rfl
  | endRequestRTU address err =>
    simp only [applyOp, modbusEndRequestRTU]
    split_ifs <;> rfl
  | endRequestTCP transaction unit err =>
    simp only [applyOp, modbusEndRequestTCP]
    split_ifs <;> rfl
  | destroy =>
    simp only [applyOp, modbusMasterDestroy, modbusMasterAllocateRequest]
    split_ifs <;> rfl

/-- Whatever the state before, an allocation within the 16-bit size through an allocator
that honours its contract leaves the invariant in force. -/
theorem allocateRequest_establishes_invariant (status : ModbusMaster) (pdusize : Nat)
    (hcontract : AllocatorHonoursContract status.allocator)
    (hfit : pdusize + status.request.padding ≤ 65535) :
    RequestInvariant (modbusMasterAllocateRequest status pdusize).2.request := by
  by_cases hz : pdusize = 0
  · subst hz
    rw [allocateRequest_zero]
    exact ⟨rfl, rfl⟩
  · have hs : (if pdusize ≠ 0 then (pdusize + status.request.padding) % 65536 else pdusize)
        = pdusize + status.request.padding := by
      rw [if_pos hz, Nat.mod_eq_of_lt (by omega)]
    have hnz : pdusize + status.request.padding ≠ 0 := by omega
    unfold modbusMasterAllocateRequest
    simp only [hs]
    rcases (hcontract status.request.data (pdusize + status.request.padding)).2 hnz with
      ⟨buf, hbuf, _⟩ | hfail
    · have hneg : ¬((MODBUS_OK, some buf).1 = MODBUS_ERROR_ALLOC ∨
          pdusize + status.request.padding = 0) := by
        intro h
        rcases h with h | h
        · exact ModbusError.noConfusion h
        · exact hnz h
      rw [hbuf, if_neg hneg]
      exact ⟨rfl, pdusize, by omega, rfl⟩
    · rw [if_pos (Or.inl hfail)]
      exact ⟨rfl, rfl⟩

theorem endRequestRTU_invariant (status : ModbusMaster) (address : Nat) (err : ModbusError)
    (h : RequestInvariant status.request) :
    RequestInvariant (modbusEndRequestRTU status address err).2.request := by
  unfold modbusEndRequestRTU
  split_ifs
  · exact h
  · exact h
  · unfold RequestInvariant at h ⊢
    cases hd : status.request.data with
    | none => rw [hd] at h; simpa [hd] using h
    | some d => rw [hd] at h; simpa [hd] using h

theorem endRequestTCP_invariant (status : ModbusMaster) (transaction unit : Nat)
    (err : ModbusError) (h : RequestInvariant status.request) :
    RequestInvariant (modbusEndRequestTCP status transaction unit err).2.request := by
  unfold modbusEndRequestTCP
  split_ifs
  · exact h
  · exact h
  · unfold RequestInvariant at h ⊢
    cases hd : status.request.data with
    | none => rw [hd] at h; simpa [hd] using h
    | some d => rw [hd] at h; simpa [hd] using h

theorem beginRequest_invariant (status : ModbusMaster) (offset padding : Nat)
    (h : RequestInvariant status.request) (hnone : status.request.data = none) :
    RequestInvariant { status.request with pduOffset := offset, padding := padding } := by
  unfold RequestInvariant at h ⊢
  rw [hnone] at h
  simpa [hnone] using h

theorem applyOp_invariant (status : ModbusMaster) (op : Op)
    (hcontract : AllocatorHonoursContract status.allocator)
    (h : RequestInvariant status.request) (horder : op.inOrder status) :
    RequestInvariant (applyOp status op).request := by
  cases op with
  | allocateRequest pdusize =>
    exact allocateRequest_establishes_invariant status pdusize hcontract horder
  | beginRequestPDU => exact beginRequest_invariant status 0 0 h horder
  | beginRequestRTU => exact beginRequest_invariant status 1 3 h horder
  | beginRequestTCP => exact beginRequest_invariant status 0 7 h horder
  | endRequestPDU err => exact h
  | endRequestRTU address err => exact endRequestRTU_invariant status address err h
  | endRequestTCP transaction unit err =>
    exact endRequestTCP_invariant status transaction unit err h
  | destroy =>
    show RequestInvariant (modbusMasterAllocateRequest status 0).2.request
    rw [allocateRequest_zero]
    exact ⟨rfl, rfl⟩

/-- C13 (counterexample). Begin RTU and allocate for a 1-byte PDU: the invariant holds,
with `pdu` at offset 1 and `length` 4. A following `modbusBeginRequestTCP` sets the PDU
offset to 0 and the padding to 7 without touching `pdu` and `length`, and the invariant
no longer holds, although the allocator honours its contract. -/
theorem beginRequest_breaks_invariant :
    AllocatorHonoursContract sampleMaster.allocator ∧
    RequestInvariant (runOps sampleMaster [Op.beginRequestRTU, Op.allocateRequest 1]).request ∧
    (runOps sampleMaster
      [Op.beginRequestRTU, Op.allocateRequest 1, Op.beginRequestTCP]).request.pdu = some 1 ∧
    (runOps sampleMaster
      [Op.beginRequestRTU, Op.allocateRequest 1, Op.beginRequestTCP]).request.pduOffset = 0 ∧
    ¬RequestInvariant (runOps sampleMaster
      [Op.beginRequestRTU, Op.allocateRequest 1, Op.beginRequestTCP]).request := by
  refine ⟨zeroFillAllocator_honours, ⟨rfl, 1, by decide, rfl⟩, rfl, rfl, ?_⟩
  intro h
  have h1 : (some 1 : Option Nat) = some 0 := h.1
  exact absurd h1 (by decide)

/-- C13 (amended). The request buffer invariant holds after `modbusMasterInit`, and with an
allocator that honours its contract it is preserved by every sequence of the operations
`modbusMasterAllocateRequest`, `modbusBeginRequestPDU/RTU/TCP`,
`modbusEndRequestPDU/RTU/TCP` and `modbusMasterDestroy`, in any order, in which every
Begin finds the buffer absent and every allocation stays within the 16-bit size
(`pdusize + padding ≤ 65535`). Moreover such an allocation puts the invariant in force
whatever the state before it, so also after a Begin on a held buffer. -/
theorem requestInvariant_preserved (defaultFunctions : List ModbusMasterFunctionHandler)
    (allocator : ModbusMasterAllocator) (dataCallback : Nat) (exceptionCallback : Option Nat)
    (hcontract : AllocatorHonoursContract allocator) :
    RequestInvariant
      (modbusMasterInit defaultFunctions allocator dataCallback exceptionCallback).2.request ∧
    (∀ (ops : List Op) (status : ModbusMaster), status.allocator = allocator →
      RequestInvariant status.request → opsInOrder status ops →
      RequestInvariant (runOps status ops).request) ∧
    (∀ (status : ModbusMaster) (pdusize : Nat), status.allocator = allocator →
      pdusize + status.request.padding ≤ 65535 →
      RequestInvariant (modbusMasterAllocateRequest status pdusize).2.request) := by
  refine ⟨⟨rfl, rfl⟩, ?_, ?_⟩
  · intro ops
    induction ops with
    | nil => intro status _ h _; exact h
    | cons op ops ih =>
      intro status halloc h horder
      exact ih (applyOp status op) ((applyOp_allocator status op).trans halloc)
        (applyOp_invariant status op (halloc ▸ hcontract) h horder.1) horder.2
  · intro status pdusize halloc hfit
    exact allocateRequest_establishes_invariant status pdusize (halloc ▸ hcontract) hfit

/-- C13 (witness). From the initialised engine: Begin RTU, allocate 3 bytes, End RTU,
release, Begin TCP, allocate 2 bytes, End TCP, destroy. -/
theorem requestInvariant_preserved_witness :
    (AllocatorHonoursContract zeroFillAllocator ∧
      (modbusMasterInit [] zeroFillAllocator 0 (some 0)).2.allocator = zeroFillAllocator ∧
      opsInOrder (modbusMasterInit [] zeroFillAllocator 0 (some 0)).2
        [Op.beginRequestRTU, Op.allocateRequest 3, Op.endRequestRTU 0x11 MODBUS_OK,
          Op.allocateRequest 0, Op.beginRequestTCP, Op.allocateRequest 2,
          Op.endRequestTCP 7 1 MODBUS_OK, Op.destroy]) ∧
    RequestInvariant (runOps (modbusMasterInit [] zeroFillAllocator 0 (some 0)).2
      [Op.beginRequestRTU, Op.allocateRequest 3, Op.endRequestRTU 0x11 MODBUS_OK,
        Op.allocateRequest 0, Op.beginRequestTCP, Op.allocateRequest 2,
        Op.endRequestTCP 7 1 MODBUS_OK, Op.destroy]).request :=
  have horder : opsInOrder (modbusMasterInit [] zeroFillAllocator 0 (some 0)).2
      [Op.beginRequestRTU, Op.allocateRequest 3, Op.endRequestRTU 0x11 MODBUS_OK,
        Op.allocateRequest 0, Op.beginRequestTCP, Op.allocateRequest 2,
        Op.endRequestTCP 7 1 MODBUS_OK, Op.destroy] :=
    ⟨rfl, Nat.le_of_ble_eq_true rfl, trivial, Nat.le_of_ble_eq_true rfl, rfl,
      Nat.le_of_ble_eq_true rfl, trivial, trivial, trivial⟩
  ⟨⟨zeroFillAllocator_honours, rfl, horder⟩,
    (requestInvariant_preserved [] zeroFillAllocator 0 (some 0) zeroFillAllocator_honours).2.1
      _ _ rfl
      (requestInvariant_preserved [] zeroFillAllocator 0 (some 0)
        zeroFillAllocator_honours).1 horder⟩

/-! ## C16: TCP parsing against PDU parsing -/

theorem modbusRBE_set_other (frame : List Nat) (i k v : Nat) (h1 : i ≠ k) (h2 : i ≠ k + 1) :
    modbusRBE (frame.set i v) k = modbusRBE frame k := by
  unfold modbusRBE
  simp only [List.getD_eq_getElem?_getD]
  rw [List.getElem?_set_ne h1, List.getElem?_set_ne h2]

theorem pduView_set_before (frame : List Nat) (i offset length v : Nat) (h : i < offset) :
    pduView (frame.set i v) offset length = pduView frame offset length := by
  unfold pduView
  rw [List.drop_set_of_lt v frame h]

/-- The unit id of the request (byte 6) plays no part in `modbusParseResponseTCP`. -/
theorem parseResponseTCP_request_unit (status : ModbusMaster) (request response : List Nat)
    (n m u : Nat) :
    modbusParseResponseTCP status (request.set 6 u) n response m
      = modbusParseResponseTCP status request n response m := by
  unfold modbusParseResponseTCP
  rw [modbusRBE_set_other request 6 0 u (by decide) (by decide),
    modbusRBE_set_other request 6 2 u (by decide) (by decide),
    modbusRBE_set_other request 6 4 u (by decide) (by decide),
    pduView_set_before request 6 7 _ u (by decide)]

/-- C16 (the code at the failing input). A 12-byte request and an 11-byte response that
both carry transaction id 7, with zero protocol ids and length fields `12 - 6` and
`11 - 6`: every header check named by the documentation passes, but the protocol-id guard
reads bytes `[0, 2)` of the response, finds the transaction id there and
`modbusParseResponseTCP` returns `MODBUS_ERROR_BAD_PROTOCOL` without calling anything,
whereas `modbusParseResponsePDU` on the frames stripped of their 7 leading bytes calls the
handler for code 3 and returns its result. -/
theorem parseResponseTCP_rejects_echoed_transaction :
    (modbusRBE [0, 7, 0, 0, 0, 6, 1, 3, 0, 0x6B, 0, 3] 2 = 0 ∧
      modbusRBE [0, 7, 0, 0, 0, 5, 1, 3, 2, 0, 5] 2 = 0 ∧
      modbusRBE [0, 7, 0, 0, 0, 6, 1, 3, 0, 0x6B, 0, 3] 0
        = modbusRBE [0, 7, 0, 0, 0, 5, 1, 3, 2, 0, 5] 0 ∧
      modbusRBE [0, 7, 0, 0, 0, 6, 1, 3, 0, 0x6B, 0, 3] 4 = 12 - 6 ∧
      modbusRBE [0, 7, 0, 0, 0, 5, 1, 3, 2, 0, 5] 4 = 11 - 6) ∧
    modbusParseResponseTCP tableMaster [0, 7, 0, 0, 0, 6, 1, 3, 0, 0x6B, 0, 3] 12
        [0, 7, 0, 0, 0, 5, 1, 3, 2, 0, 5] 11
      = (MODBUS_ERROR_BAD_PROTOCOL, []) ∧
    callParseResponsePDU tableMaster
        (([0, 7, 0, 0, 0, 5, 1, 3, 2, 0, 5] : List Nat).getD 6 0)
        (pduView [0, 7, 0, 0, 0, 6, 1, 3, 0, 0x6B, 0, 3] 7 (12 - 7)) (12 - 7)
        (pduView [0, 7, 0, 0, 0, 5, 1, 3, 2, 0, 5] 7 (11 - 7)) (11 - 7)
      = (MODBUS_OK, [Call.handler 0 3 [3, 0, 0x6B, 0, 3] 5 [3, 2, 0, 5] 4]) := by
  refine ⟨⟨rfl, rfl, rfl, rfl, rfl⟩, rfl, rfl⟩

/-- With both transaction ids zero the delegation is as documented: for TCP frames of
lengths `n ≥ 8` and `m ≥ 8`, whatever `n` and `m`, whose transaction-id and protocol-id
fields are zero and whose length fields are `n - 6` and `m - 6`, `modbusParseResponseTCP`
returns the same result and makes the same calls as the call of `modbusParseResponsePDU`
with address = response byte 6 on the frames stripped of their leading 7 bytes, with
lengths `n - 7` and `m - 7`. -/
theorem parseResponseTCP_zero_transaction (status : ModbusMaster)
    (request response : List Nat) (n m : Nat)
    (hn : 8 ≤ n) (hm : 8 ≤ m)
    (htransaction : modbusRBE request 0 = 0 ∧ modbusRBE response 0 = 0)
    (hprotocol : modbusRBE request 2 = 0 ∧ modbusRBE response 2 = 0)
    (hlength : modbusRBE request 4 = n - 6 ∧ modbusRBE response 4 = m - 6) :
    modbusParseResponseTCP status request n response m =
      callParseResponsePDU status (response.getD 6 0)
        (pduView request 7 (n - 7)) (n - 7) (pduView response 7 (m - 7)) (m - 7) := by
  have hshort : ¬(n < 8 ∨ m < 8) := by omega
  have hp : ¬(modbusRBE request 2 ≠ 0 ∨ modbusRBE response 0 ≠ 0) :=
    fun h => h.elim (fun h2 => h2 hprotocol.1) (fun h2 => h2 htransaction.2)
  have ht : ¬(modbusRBE request 0 ≠ modbusRBE response 0) :=
    fun h => h (htransaction.1.trans htransaction.2.symm)
  have hl : ¬(modbusRBE request 4 ≠ n - 6 ∨ modbusRBE response 4 ≠ m - 6) :=
    fun h => h.elim (fun h2 => h2 hlength.1) (fun h2 => h2 hlength.2)
  unfold modbusParseResponseTCP callParseResponsePDU
  rw [if_neg hshort, if_neg hp, if_neg ht, if_neg hl, take_pduView, take_pduView]

/-- The 12-byte request and 11-byte response with transaction id 0: the handler for code 3
is called, by `modbusParseResponseTCP` as by the PDU-level call. -/
theorem parseResponseTCP_zero_transaction_witness :
    modbusParseResponseTCP tableMaster readRequestTCP 12 readResponseTCP 11 =
      callParseResponsePDU tableMaster (readResponseTCP.getD 6 0)
        (pduView readRequestTCP 7 (12 - 7)) (12 - 7)
        (pduView readResponseTCP 7 (11 - 7)) (11 - 7) ∧
    modbusParseResponseTCP tableMaster readRequestTCP 12 readResponseTCP 11
      = (MODBUS_OK, [Call.handler 0 3 [3, 0, 0x6B, 0, 3] 5 [3, 2, 0, 5] 4]) :=
  ⟨parseResponseTCP_zero_transaction tableMaster readRequestTCP readResponseTCP 12 11
      (by decide) (by decide) ⟨rfl, rfl⟩ ⟨rfl, rfl⟩ ⟨rfl, rfl⟩,
    rfl⟩

/-- A 263-byte request with zero transaction id: the length `263 - 7 = 256` of its PDU
becomes the 8-bit value 0 at the call of `modbusParseResponsePDU`, in
`modbusParseResponseTCP` as in a direct call, and both return `MODBUS_ERROR_LENGTH`. -/
theorem parseResponseTCP_long_request :
    modbusRBE longRequestTCP 4 = 263 - 6 ∧
    modbusParseResponseTCP sampleMaster longRequestTCP 263 exceptionResponseTCP 9
      = (MODBUS_ERROR_LENGTH, []) ∧
    callParseResponsePDU sampleMaster (exceptionResponseTCP.getD 6 0)
        (pduView longRequestTCP 7 (263 - 7)) (263 - 7)
        (pduView exceptionResponseTCP 7 (9 - 7)) (9 - 7)
      = (MODBUS_ERROR_LENGTH, []) := by
  refine ⟨rfl, rfl, rfl⟩

/-! ## C17: routing to the exception callback -/

theorem exceptionCalls_dispatchLoop (functions : List ModbusMasterFunctionHandler) :
    ∀ (k c : Nat) (request : List Nat) (requestLength : Nat) (response : List Nat)
      (responseLength : Nat),
      exceptionCalls
        (dispatchLoop functions k c request requestLength response responseLength).2 = 0 := by
  induction functions with
  | nil => intro k c _ _ _ _; rfl
  | cons g rest ih =>
    intro k c request requestLength response responseLength
    unfold dispatchLoop
    split_ifs
    · rfl
    · exact ih (k + 1) c request requestLength response responseLength

/-- The exception callback in a call of `modbusParseResponsePDU`: at most one call, and
only for a response of length 2 whose function byte has its high bit set. -/
theorem parseResponsePDU_exceptionCalls (status : ModbusMaster) (a : Nat)
    (request : List Nat) (n : Nat) (response : List Nat) (m : Nat) :
    exceptionCalls (modbusParseResponsePDU status a request n response m).2 ≤ 1 ∧
    (exceptionCalls (modbusParseResponsePDU status a request n response m).2 ≠ 0 →
      m = 2 ∧ response.getD 0 0 &&& 0x80 ≠ 0) := by
  unfold modbusParseResponsePDU
  by_cases hlen : n = 0 ∨ m = 0
  · rw [if_pos hlen]
    exact ⟨Nat.zero_le 1, fun h => absurd rfl h⟩
  · rw [if_neg hlen]
    by_cases hexc : response.getD 0 0 &&& 0x80 ≠ 0 ∧ m = 2
    · rw [if_pos hexc]
      refine ⟨?_, fun _ => ⟨hexc.2, hexc.1⟩⟩
      cases status.exceptionCallback with
      | none => exact Nat.zero_le 1
      | some cb => exact Nat.le_refl 1
    · rw [if_neg hexc]
      by_cases hfun : response.getD 0 0 ≠ request.getD 0 0
      · rw [if_pos hfun]
        exact ⟨Nat.zero_le 1, fun h => absurd rfl h⟩
      · rw [if_neg hfun, exceptionCalls_dispatchLoop]
        exact ⟨Nat.zero_le 1, fun h => absurd rfl h⟩

/-- C17 (counterexample). A 265-byte TCP response whose PDU has 258 bytes and starts with
`83 02`, after a well-formed request: `modbusParseResponseTCP` hands the PDU length 258
over as the 8-bit value 2, and the exception callback is called (with function 3 and
code 2) although the response PDU is not 2 bytes long. -/
theorem parseResponseTCP_long_response_to_exceptionCallback :
    longResponseTCP.length = 265 ∧ 265 - 7 ≠ 2 ∧
    modbusRBE longResponseTCP 4 = 265 - 6 ∧
    modbusParseResponseTCP tableMaster readRequestTCP 12 longResponseTCP 265
      = (MODBUS_OK, [Call.exceptionCallback 1 3 2]) ∧
    exceptionCalls
      (modbusParseResponseTCP tableMaster readRequestTCP 12 longResponseTCP 265).2 = 1 := by
  refine ⟨?_, by decide, rfl, rfl, rfl⟩
  unfold longResponseTCP
  rw [List.length_append, List.length_replicate]
  rfl

/-- C17 (amended). In a call of `modbusParseResponsePDU`, and in a call of
`modbusParseResponseRTU` with a response frame of at most 258 bytes or of
`modbusParseResponseTCP` with a response frame of at most 262 bytes, the exception
callback is called at most once, and only when the response PDU is exactly 2 bytes long
and its function byte has the high bit set. A response PDU of any other non-zero length
is, whatever its function byte, put through the function code comparison and the dispatch
loop. -/
theorem exceptionCallback_routing (status : ModbusMaster) (a : Nat)
    (request response : List Nat) (n m : Nat) :
    (exceptionCalls (modbusParseResponsePDU status a request n response m).2 ≤ 1 ∧
      (exceptionCalls (modbusParseResponsePDU status a request n response m).2 ≠ 0 →
        m = 2 ∧ response.getD 0 0 &&& 0x80 ≠ 0) ∧
      (n ≠ 0 → m ≠ 0 → m ≠ 2 →
        modbusParseResponsePDU status a request n response m
          = if response.getD 0 0 ≠ request.getD 0 0 then (MODBUS_ERROR_FUNCTION, [])
            else dispatchLoop status.functions 0 (response.getD 0 0) request n response m)) ∧
    (m ≤ 258 →
      exceptionCalls (modbusParseResponseRTU status request n response m).2 ≤ 1 ∧
      (exceptionCalls (modbusParseResponseRTU status request n response m).2 ≠ 0 →
        m - 3 = 2 ∧ (pduView response 1 (m - 3)).getD 0 0 &&& 0x80 ≠ 0)) ∧
    (m ≤ 262 →
      exceptionCalls (modbusParseResponseTCP status request n response m).2 ≤ 1 ∧
      (exceptionCalls (modbusParseResponseTCP status request n response m).2 ≠ 0 →
        m - 7 = 2 ∧ (pduView response 7 (m - 7)).getD 0 0 &&& 0x80 ≠ 0)) := by
  refine ⟨⟨(parseResponsePDU_exceptionCalls status a request n response m).1,
    (parseResponsePDU_exceptionCalls status a request n response m).2, ?_⟩, ?_, ?_⟩
  · intro hn hm h2
    unfold modbusParseResponsePDU
    rw [if_neg (fun h => h.elim hn hm), if_neg (fun h => h2 h.2)]
  · intro hm
    unfold modbusParseResponseRTU
    by_cases hshort : n < 4 ∨ m < 4
    · rw [if_pos hshort]
      exact ⟨Nat.zero_le 1, fun h => absurd rfl h⟩
    · rw [if_neg hshort]
      have e : (m - 3) % 256 = m - 3 := Nat.mod_eq_of_lt (by omega)
      simp only [e]
      split_ifs
      · exact ⟨Nat.zero_le 1, fun h => absurd rfl h⟩
      · exact ⟨Nat.zero_le 1, fun h => absurd rfl h⟩
      · exact ⟨Nat.zero_le 1, fun h => absurd rfl h⟩
      · exact parseResponsePDU_exceptionCalls status _ _ _ _ _
  · intro hm
    unfold modbusParseResponseTCP
    by_cases hshort : n < 8 ∨ m < 8
    · rw [if_pos hshort]
      exact ⟨Nat.zero_le 1, fun h => absurd rfl h⟩
    · rw [if_neg hshort]
      have e : (m - 7) % 256 = m - 7 := Nat.mod_eq_of_lt (by omega)
      simp only [e]
      split_ifs
      · exact ⟨Nat.zero_le 1, fun h => absurd rfl h⟩
      · exact ⟨Nat.zero_le 1, fun h => absurd rfl h⟩
      · exact ⟨Nat.zero_le 1, fun h => absurd rfl h⟩
      · exact parseResponsePDU_exceptionCalls status _ _ _ _ _

/-- C17 (witness). The 9-byte TCP exception response: one call of the callback, and the
response PDU has `9 - 7 = 2` bytes. -/
theorem exceptionCallback_routing_witness :
    (9 ≤ 262 ∧
      exceptionCalls
        (modbusParseResponseTCP tableMaster readRequestTCP 12 exceptionResponseTCP 9).2 ≠ 0) ∧
    exceptionCalls
      (modbusParseResponseTCP tableMaster readRequestTCP 12 exceptionResponseTCP 9).2 ≤ 1 ∧
    9 - 7 = 2 ∧ (pduView exceptionResponseTCP 7 (9 - 7)).getD 0 0 &&& 0x80 ≠ 0 :=
  ⟨⟨by decide, by decide⟩,
    ((exceptionCallback_routing tableMaster 0 readRequestTCP exceptionResponseTCP 12 9).2.2
      (by decide)).1,
    ((exceptionCallback_routing tableMaster 0 readRequestTCP exceptionResponseTCP 12 9).2.2
      (by decide)).2 (by decide)⟩

/-! ## C18: rejection at transport level -/

/-- C18. Whenever a transport-level guard of `modbusParseResponseRTU` fires (a frame
shorter than 4 bytes, a CRC mismatch in the request or in the response, a zero request
address or differing addresses), and whenever a transport-level guard of
`modbusParseResponseTCP` fires (a frame shorter than 8 bytes, the protocol-id guard, a
transaction-id mismatch, a declared length that differs from the frame length minus 6),
the function returns the error of a guard, calls neither a handler nor the exception
callback, and so leaves the engine state as it was, whatever effect calls have. -/
theorem transport_rejection_calls_nothing (status : ModbusMaster)
    (request response : List Nat) (n m : Nat)
    (effect : Call → ModbusMaster → ModbusMaster) :
    ((n < 4 ∨ m < 4 ∨ modbusCRC request (n - 2) ≠ modbusRLE request (n - 2) ∨
        modbusCRC response (m - 2) ≠ modbusRLE response (m - 2) ∨
        request.getD 0 0 = 0 ∨ request.getD 0 0 ≠ response.getD 0 0) →
      (modbusParseResponseRTU status request n response m).2 = [] ∧
      ((modbusParseResponseRTU status request n response m).1 = MODBUS_ERROR_LENGTH ∨
        (modbusParseResponseRTU status request n response m).1 = MODBUS_ERROR_CRC ∨
        (modbusParseResponseRTU status request n response m).1 = MODBUS_ERROR_ADDRESS) ∧
      stateAfter effect status (modbusParseResponseRTU status request n response m).2
        = status) ∧
    ((n < 8 ∨ m < 8 ∨ modbusRBE request 2 ≠ 0 ∨ modbusRBE response 0 ≠ 0 ∨
        modbusRBE request 0 ≠ modbusRBE response 0 ∨
        modbusRBE request 4 ≠ n - 6 ∨ modbusRBE response 4 ≠ m - 6) →
      (modbusParseResponseTCP status request n response m).2 = [] ∧
      ((modbusParseResponseTCP status request n response m).1 = MODBUS_ERROR_LENGTH ∨
        (modbusParseResponseTCP status request n response m).1 = MODBUS_ERROR_BAD_PROTOCOL ∨
        (modbusParseResponseTCP status request n response m).1
          = MODBUS_ERROR_BAD_TRANSACTION) ∧
      stateAfter effect status (modbusParseResponseTCP status request n response m).2
        = status) := by
  constructor
  · intro h
    unfold modbusParseResponseRTU
    by_cases h1 : n < 4 ∨ m < 4
    · rw [if_pos h1]; exact ⟨rfl, Or.inl rfl, rfl⟩
    · rw [if_neg h1]
      by_cases h2 : modbusCRC request (n - 2) ≠ modbusRLE request (n - 2)
      · rw [if_pos h2]; exact ⟨rfl, Or.inr (Or.inl rfl), rfl⟩
      · rw [if_neg h2]
        by_cases h3 : modbusCRC response (m - 2) ≠ modbusRLE response (m - 2)
        · rw [if_pos h3]; exact ⟨rfl, Or.inr (Or.inl rfl), rfl⟩
        · rw [if_neg h3]
          have h4 : request.getD 0 0 = 0 ∨ request.getD 0 0 ≠ response.getD 0 0 := by
            rcases h with h | h | h | h | h | h
            · exact absurd (Or.inl h) h1
            · exact absurd (Or.inr h) h1
            · exact absurd h h2
            · exact absurd h h3
            · exact Or.inl h
            · exact Or.inr h
          rw [if_pos h4]; exact ⟨rfl, Or.inr (Or.inr rfl), rfl⟩
  · intro h
    unfold modbusParseResponseTCP
    by_cases h1 : n < 8 ∨ m < 8
    · rw [if_pos h1]; exact ⟨rfl, Or.inl rfl, rfl⟩
    · rw [if_neg h1]
      by_cases h2 : modbusRBE request 2 ≠ 0 ∨ modbusRBE response 0 ≠ 0
      · rw [if_pos h2]; exact ⟨rfl, Or.inr (Or.inl rfl), rfl⟩
      · rw [if_neg h2]
        by_cases h3 : modbusRBE request 0 ≠ modbusRBE response 0
        · rw [if_pos h3]; exact ⟨rfl, Or.inr (Or.inr rfl), rfl⟩
        · rw [if_neg h3]
          have h4 : modbusRBE request 4 ≠ n - 6 ∨ modbusRBE response 4 ≠ m - 6 := by
            rcases h with h | h | h | h | h | h | h
            · exact absurd (Or.inl h) h1
            · exact absurd (Or.inr h) h1
            · exact absurd (Or.inl h) h2
            · exact absurd (Or.inr h) h2
            · exact absurd h h3
            · exact Or.inl h
            · exact Or.inr h
          rw [if_pos h4]; exact ⟨rfl, Or.inl rfl, rfl⟩

/-- C18 (witness). An RTU response from another address than the request's, and a TCP
response whose declared length is wrong. -/
theorem transport_rejection_calls_nothing_witness :
    (readRequest.getD 0 0 ≠ strayResponse.getD 0 0 ∧
      modbusRBE [0, 0, 0, 0, 0, 5, 9, 3] 4 ≠ 8 - 6) ∧
    (modbusParseResponseRTU tableMaster readRequest 8 strayResponse 7).2 = [] ∧
    (modbusParseResponseTCP tableMaster [0, 0, 0, 0, 0, 2, 1, 3] 8
      [0, 0, 0, 0, 0, 5, 9, 3] 8).2 = [] :=
  ⟨⟨by decide, by decide⟩,
    ((transport_rejection_calls_nothing tableMaster readRequest strayResponse 8 7
      (fun _ s => s)).1 (Or.inr (Or.inr (Or.inr (Or.inr (Or.inr (by decide))))))).1,
    ((transport_rejection_calls_nothing tableMaster [0, 0, 0, 0, 0, 2, 1, 3]
      [0, 0, 0, 0, 0, 5, 9, 3] 8 8 (fun _ s => s)).2
      (Or.inr (Or.inr (Or.inr (Or.inr (Or.inr (Or.inr (by decide)))))))).1⟩

/-! ## C19: transaction ids that the TCP parser lets through -/

/-- C19. If the transaction-id field of the request or of the response is not zero,
`modbusParseResponseTCP` returns `MODBUS_ERROR_LENGTH`, `MODBUS_ERROR_BAD_PROTOCOL` or
`MODBUS_ERROR_BAD_TRANSACTION` and calls nothing: the PDU-level parser is reached only
with both transaction ids zero. -/
theorem parseResponseTCP_nonzero_transaction (status : ModbusMaster)
    (request response : List Nat) (n m : Nat)
    (htransaction : modbusRBE request 0 ≠ 0 ∨ modbusRBE response 0 ≠ 0) :
    ((modbusParseResponseTCP status request n response m).1 = MODBUS_ERROR_LENGTH ∨
      (modbusParseResponseTCP status request n response m).1 = MODBUS_ERROR_BAD_PROTOCOL ∨
      (modbusParseResponseTCP status request n response m).1
        = MODBUS_ERROR_BAD_TRANSACTION) ∧
    (modbusParseResponseTCP status request n response m).2 = [] := by
  unfold modbusParseResponseTCP
  by_cases h1 : n < 8 ∨ m < 8
  · rw [if_pos h1]; exact ⟨Or.inl rfl, rfl⟩
  · rw [if_neg h1]
    by_cases h2 : modbusRBE request 2 ≠ 0 ∨ modbusRBE response 0 ≠ 0
    · rw [if_pos h2]; exact ⟨Or.inr (Or.inl rfl), rfl⟩
    · rw [if_neg h2]
      have hresp : modbusRBE response 0 = 0 := not_not.mp (fun h => h2 (Or.inr h))
      have h3 : modbusRBE request 0 ≠ modbusRBE response 0 := by
        rw [hresp]
        exact htransaction.elim id (fun h => absurd hresp h)
      rw [if_pos h3]; exact ⟨Or.inr (Or.inr rfl), rfl⟩

/-- C19 (witness). The request left by `modbusEndRequestTCP` with transaction 7 and a
response that echoes transaction 7: `MODBUS_ERROR_BAD_PROTOCOL`, nothing called. -/
theorem parseResponseTCP_nonzero_transaction_witness :
    ((modbusEndRequestTCP
        (writePDU (modbusMasterAllocateRequest (modbusBeginRequestTCP tableMaster) 2).2
          [0x03, 0x2A]) 7 1 MODBUS_OK).2.request.data
      = some [0, 7, 0, 0, 0, 3, 1, 0, 0] ∧
      (modbusRBE [0, 7, 0, 0, 0, 3, 1, 0, 0] 0 ≠ 0 ∨
        modbusRBE [0, 7, 0, 0, 0, 3, 1, 0x83, 2] 0 ≠ 0)) ∧
    modbusParseResponseTCP tableMaster [0, 7, 0, 0, 0, 3, 1, 0, 0] 9
      [0, 7, 0, 0, 0, 3, 1, 0x83, 2] 9 = (MODBUS_ERROR_BAD_PROTOCOL, []) :=
  ⟨⟨rfl, Or.inl (by decide)⟩,
    Prod.ext
      (((parseResponseTCP_nonzero_transaction tableMaster [0, 7, 0, 0, 0, 3, 1, 0, 0]
        [0, 7, 0, 0, 0, 3, 1, 0x83, 2] 9 9 (Or.inl (by decide))).1).elim
          (fun h => absurd h (by decide))
          (fun h => h.elim id (fun h2 => absurd h2 (by decide))))
      (parseResponseTCP_nonzero_transaction tableMaster [0, 7, 0, 0, 0, 3, 1, 0, 0]
        [0, 7, 0, 0, 0, 3, 1, 0x83, 2] 9 9 (Or.inl (by decide))).2⟩

/-! ## C20: buffer positions read by the parsing functions -/

theorem tracedParseResponsePDU_result (status : ModbusMaster) (a : Nat)
    (request : List Nat) (n : Nat) (response : List Nat) (m : Nat) :
    (tracedParseResponsePDU status a request n response m).1
      = modbusParseResponsePDU status a request n response m := by
  unfold tracedParseResponsePDU modbusParseResponsePDU
  by_cases h1 : n = 0 ∨ m = 0
  · rw [if_pos h1, if_pos h1]
  · rw [if_neg h1, if_neg h1]
    by_cases h2 : response.getD 0 0 &&& 0x80 ≠ 0 ∧ m = 2
    · rw [if_pos h2, if_pos h2]
      cases status.exceptionCallback <;> rfl
    · rw [if_neg h2, if_neg h2]
      by_cases h3 : response.getD 0 0 ≠ request.getD 0 0
      · rw [if_pos h3, if_pos h3]
      · rw [if_neg h3, if_neg h3]

theorem tracedParseResponseRTU_result (status : ModbusMaster)
    (request : List Nat) (n : Nat) (response : List Nat) (m : Nat) :
    (tracedParseResponseRTU status request n response m).1
      = modbusParseResponseRTU status request n response m := by
  unfold tracedParseResponseRTU modbusParseResponseRTU
  by_cases h1 : n < 4 ∨ m < 4
  · rw [if_pos h1, if_pos h1]
  · rw [if_neg h1, if_neg h1]
    by_cases h2 : modbusCRC request (n - 2) ≠ modbusRLE request (n - 2)
    · rw [if_pos h2, if_pos h2]
    · rw [if_neg h2, if_neg h2]
      by_cases h3 : modbusCRC response (m - 2) ≠ modbusRLE response (m - 2)
      · rw [if_pos h3, if_pos h3]
      · rw [if_neg h3, if_neg h3]
        by_cases h4 : request.getD 0 0 = 0
        · rw [if_pos h4, if_pos (Or.inl h4)]
        · rw [if_neg h4]
          by_cases h5 : request.getD 0 0 ≠ response.getD 0 0
          · rw [if_pos h5, if_pos (Or.inr h5)]
          · have h45 : ¬(request.getD 0 0 = 0 ∨ request.getD 0 0 ≠ response.getD 0 0) :=
              fun h => h.elim h4 h5
            rw [if_neg h5, if_neg h45]
            exact tracedParseResponsePDU_result status _ _ _ _ _

theorem tracedParseResponseTCP_result (status : ModbusMaster)
    (request : List Nat) (n : Nat) (response : List Nat) (m : Nat) :
    (tracedParseResponseTCP status request n response m).1
      = modbusParseResponseTCP status request n response m := by
  unfold tracedParseResponseTCP modbusParseResponseTCP
  by_cases h1 : n < 8 ∨ m < 8
  · rw [if_pos h1, if_pos h1]
  · rw [if_neg h1, if_neg h1]
    by_cases h2 : modbusRBE request 2 ≠ 0
    · rw [if_pos h2, if_pos (Or.inl h2)]
    · rw [if_neg h2]
      by_cases h3 : modbusRBE response 0 ≠ 0
      · rw [if_pos h3, if_pos (Or.inr h3)]
      · have h23 : ¬(modbusRBE request 2 ≠ 0 ∨ modbusRBE response 0 ≠ 0) :=
          fun h => h.elim h2 h3
        rw [if_neg h3, if_neg h23]
        by_cases h4 : modbusRBE request 0 ≠ modbusRBE response 0
        · rw [if_pos h4, if_pos h4]
        · rw [if_neg h4, if_neg h4]
          by_cases h5 : modbusRBE request 4 ≠ n - 6
          · rw [if_pos h5, if_pos (Or.inl h5)]
          · rw [if_neg h5]
            by_cases h6 : modbusRBE response 4 ≠ m - 6
            · rw [if_pos h6, if_pos (Or.inr h6)]
            · have h56 : ¬(modbusRBE request 4 ≠ n - 6 ∨ modbusRBE response 4 ≠ m - 6) :=
                fun h => h.elim h5 h6
              rw [if_neg h6, if_neg h56]
              exact tracedParseResponsePDU_result status _ _ _ _ _

theorem crcCheckReads_lt (length n : Nat) (h : length + 2 ≤ n) :
    ∀ i ∈ crcCheckReads length, i < n := by
  intro i hi
  unfold crcCheckReads at hi
  simp only [List.mem_append, List.mem_range, List.mem_cons, List.mem_singleton,
    List.not_mem_nil, or_false] at hi
  omega

/-- The positions read by `modbusParseResponsePDU` lie below the lengths it was given. -/
theorem tracedParseResponsePDU_reads (status : ModbusMaster) (a : Nat)
    (request : List Nat) (n : Nat) (response : List Nat) (m : Nat) :
    (∀ i ∈ (tracedParseResponsePDU status a request n response m).2.1, i < n) ∧
    (∀ i ∈ (tracedParseResponsePDU status a request n response m).2.2, i < m) := by
  unfold tracedParseResponsePDU
  by_cases h1 : n = 0 ∨ m = 0
  · rw [if_pos h1]
    exact ⟨fun i hi => absurd hi (List.not_mem_nil i), fun i hi => absurd hi (List.not_mem_nil i)⟩
  · rw [if_neg h1]
    have hn : 0 < n := Nat.pos_of_ne_zero (fun h => h1 (Or.inl h))
    have hm : 0 < m := Nat.pos_of_ne_zero (fun h => h1 (Or.inr h))
    by_cases h2 : response.getD 0 0 &&& 0x80 ≠ 0 ∧ m = 2
    · rw [if_pos h2]
      cases status.exceptionCallback with
      | none =>
        refine ⟨fun i hi => absurd hi (List.not_mem_nil i), fun i hi => ?_⟩
        simp only [List.mem_singleton] at hi
        omega
      | some cb =>
        refine ⟨fun i hi => absurd hi (List.not_mem_nil i), fun i hi => ?_⟩
        simp only [List.mem_cons, List.mem_singleton, List.not_mem_nil, or_false] at hi
        omega
    · rw [if_neg h2]
      split_ifs
      · constructor <;> intro i hi <;> simp only [List.mem_singleton] at hi <;> omega
      · constructor <;> intro i hi <;> simp only [List.mem_singleton] at hi <;> omega

theorem dispatchLoop_calls (functions : List ModbusMasterFunctionHandler) :
    ∀ (k c : Nat) (request : List Nat) (n : Nat) (response : List Nat) (m : Nat),
      ∀ call ∈ (dispatchLoop functions k c request n response m).2,
        ∃ j, call = Call.handler j c request n response m := by
  induction functions with
  | nil => intro k c _ _ _ _ call hcall; exact absurd hcall (List.not_mem_nil call)
  | cons g rest ih =>
    intro k c request n response m call hcall
    unfold dispatchLoop at hcall
    split_ifs at hcall
    · exact ⟨k, List.mem_singleton.mp hcall⟩
    · exact ih (k + 1) c request n response m call hcall

/-- A handler called by `modbusParseResponsePDU` receives the two PDUs and lengths that
the function itself was given. -/
theorem parseResponsePDU_handler_arguments (status : ModbusMaster) (a : Nat)
    (request : List Nat) (n : Nat) (response : List Nat) (m : Nat)
    (j f : Nat) (rq : List Nat) (rqLen : Nat) (rs : List Nat) (rsLen : Nat)
    (hcall : Call.handler j f rq rqLen rs rsLen
      ∈ (modbusParseResponsePDU status a request n response m).2) :
    rq = request ∧ rqLen = n ∧ rs = response ∧ rsLen = m := by
  unfold modbusParseResponsePDU at hcall
  by_cases h1 : n = 0 ∨ m = 0
  · rw [if_pos h1] at hcall
    exact absurd hcall (List.not_mem_nil _)
  · rw [if_neg h1] at hcall
    by_cases h2 : response.getD 0 0 &&& 0x80 ≠ 0 ∧ m = 2
    · rw [if_pos h2] at hcall
      cases hcb : status.exceptionCallback with
      | none => rw [hcb] at hcall; exact absurd hcall (List.not_mem_nil _)
      | some cb =>
        rw [hcb] at hcall
        have h := List.mem_singleton.mp hcall
        exact Call.noConfusion h
    · rw [if_neg h2] at hcall
      by_cases h3 : response.getD 0 0 ≠ request.getD 0 0
      · rw [if_pos h3] at hcall
        exact absurd hcall (List.not_mem_nil _)
      · rw [if_neg h3] at hcall
        obtain ⟨j2, h⟩ := dispatchLoop_calls status.functions 0 _ request n response m _ hcall
        injection h with _ _ h3 h4 h5 h6
        exact ⟨h3, h4, h5, h6⟩

theorem shifted_reads_lt (reads : List Nat) (offset length n : Nat)
    (hreads : ∀ i ∈ reads, i < length) (hfit : offset + length ≤ n) :
    ∀ i ∈ reads.map (· + offset), i < n := by
  intro i hi
  obtain ⟨k, hk, rfl⟩ := List.mem_map.mp hi
  have := hreads k hk
  omega

/-- The positions read by `modbusParseResponseRTU` lie below the frame lengths. -/
theorem tracedParseResponseRTU_reads (status : ModbusMaster)
    (request : List Nat) (n : Nat) (response : List Nat) (m : Nat) :
    (∀ i ∈ (tracedParseResponseRTU status request n response m).2.1, i < n) ∧
    (∀ i ∈ (tracedParseResponseRTU status request n response m).2.2, i < m) := by
  have hnil : ∀ i ∈ ([] : List Nat), i < n ∧ i < m :=
    fun i hi => absurd hi (List.not_mem_nil i)
  unfold tracedParseResponseRTU
  by_cases h1 : n < 4 ∨ m < 4
  · rw [if_pos h1]
    exact ⟨fun i hi => (hnil i hi).1, fun i hi => (hnil i hi).2⟩
  · rw [if_neg h1]
    have hn : 4 ≤ n := by omega
    have hm : 4 ≤ m := by omega
    have hcn := crcCheckReads_lt (n - 2) n (by omega)
    have hcm := crcCheckReads_lt (m - 2) m (by omega)
    by_cases h2 : modbusCRC request (n - 2) ≠ modbusRLE request (n - 2)
    · rw [if_pos h2]
      exact ⟨hcn, fun i hi => (hnil i hi).2⟩
    · rw [if_neg h2]
      by_cases h3 : modbusCRC response (m - 2) ≠ modbusRLE response (m - 2)
      · rw [if_pos h3]
        exact ⟨hcn, hcm⟩
      · rw [if_neg h3]
        by_cases h4 : request.getD 0 0 = 0
        · rw [if_pos h4]
          refine ⟨fun i hi => ?_, hcm⟩
          rcases List.mem_append.mp hi with hi | hi
          · exact hcn i hi
          · simp only [List.mem_singleton] at hi; omega
        · rw [if_neg h4]
          by_cases h5 : request.getD 0 0 ≠ response.getD 0 0
          · rw [if_pos h5]
            constructor
            · intro i hi
              rcases List.mem_append.mp hi with hi | hi
              · exact hcn i hi
              · simp only [List.mem_cons, List.mem_singleton, List.not_mem_nil, or_false,
                  or_self] at hi
                omega
            · intro i hi
              rcases List.mem_append.mp hi with hi | hi
              · exact hcm i hi
              · simp only [List.mem_singleton] at hi; omega
          · rw [if_neg h5]
            have hp := tracedParseResponsePDU_reads status (request.getD 0 0)
              (pduView request 1 ((n - 3) % 256)) ((n - 3) % 256)
              (pduView response 1 ((m - 3) % 256)) ((m - 3) % 256)
            have hln : (n - 3) % 256 ≤ n - 3 := Nat.mod_le _ _
            have hlm : (m - 3) % 256 ≤ m - 3 := Nat.mod_le _ _
            constructor
            · intro i hi
              rcases List.mem_append.mp hi with hi | hi
              · rcases List.mem_append.mp hi with hi | hi
                · exact hcn i hi
                · simp only [List.mem_cons, List.mem_singleton, List.not_mem_nil, or_false,
                    or_self] at hi
                  omega
              · exact shifted_reads_lt _ 1 _ n hp.1 (by omega) i hi
            · intro i hi
              rcases List.mem_append.mp hi with hi | hi
              · rcases List.mem_append.mp hi with hi | hi
                · exact hcm i hi
                · simp only [List.mem_singleton] at hi; omega
              · exact shifted_reads_lt _ 1 _ m hp.2 (by omega) i hi

theorem header_reads_lt (reads : List Nat) (n : Nat) (hn : 8 ≤ n)
    (hreads : ∀ i ∈ reads, i < 7) : ∀ i ∈ reads, i < n :=
  fun i hi => Nat.lt_of_lt_of_le (hreads i hi) (by omega)

/-- The positions read by `modbusParseResponseTCP` lie below the frame lengths. -/
theorem tracedParseResponseTCP_reads (status : ModbusMaster)
    (request : List Nat) (n : Nat) (response : List Nat) (m : Nat) :
    (∀ i ∈ (tracedParseResponseTCP status request n response m).2.1, i < n) ∧
    (∀ i ∈ (tracedParseResponseTCP status request n response m).2.2, i < m) := by
  unfold tracedParseResponseTCP
  by_cases h1 : n < 8 ∨ m < 8
  · rw [if_pos h1]
    exact ⟨fun i hi => absurd hi (List.not_mem_nil i), fun i hi => absurd hi (List.not_mem_nil i)⟩
  · rw [if_neg h1]
    have hn : 8 ≤ n := by omega
    have hm : 8 ≤ m := by omega
    split_ifs
    · exact ⟨header_reads_lt _ n hn (by decide), header_reads_lt _ m hm (by decide)⟩
    · exact ⟨header_reads_lt _ n hn (by decide), header_reads_lt _ m hm (by decide)⟩
    · exact ⟨header_reads_lt _ n hn (by decide), header_reads_lt _ m hm (by decide)⟩
    · exact ⟨header_reads_lt _ n hn (by decide), header_reads_lt _ m hm (by decide)⟩
    · exact ⟨header_reads_lt _ n hn (by decide), header_reads_lt _ m hm (by decide)⟩
    · have hp := tracedParseResponsePDU_reads status (response.getD 6 0)
        (pduView request 7 ((n - 7) % 256)) ((n - 7) % 256)
        (pduView response 7 ((m - 7) % 256)) ((m - 7) % 256)
      have hln : (n - 7) % 256 ≤ n - 7 := Nat.mod_le _ _
      have hlm : (m - 7) % 256 ≤ m - 7 := Nat.mod_le _ _
      constructor
      · intro i hi
        rcases List.mem_append.mp hi with hi | hi
        · exact header_reads_lt _ n hn (by decide) i hi
        · exact shifted_reads_lt _ 7 _ n hp.1 (by omega) i hi
      · intro i hi
        rcases List.mem_append.mp hi with hi | hi
        · exact header_reads_lt _ m hm (by decide) i hi
        · exact shifted_reads_lt _ 7 _ m hp.2 (by omega) i hi

/-- A handler called in the course of `modbusParseResponseRTU` receives views that start
at byte 1 of the frames and end before the CRC trailers. -/
theorem parseResponseRTU_handler_arguments (status : ModbusMaster)
    (request : List Nat) (n : Nat) (response : List Nat) (m : Nat)
    (j f : Nat) (rq : List Nat) (rqLen : Nat) (rs : List Nat) (rsLen : Nat)
    (hcall : Call.handler j f rq rqLen rs rsLen
      ∈ (modbusParseResponseRTU status request n response m).2) :
    (rq = pduView request 1 rqLen ∧ 1 + rqLen + 2 ≤ n) ∧
    (rs = pduView response 1 rsLen ∧ 1 + rsLen + 2 ≤ m) := by
  unfold modbusParseResponseRTU at hcall
  by_cases h1 : n < 4 ∨ m < 4
  · rw [if_pos h1] at hcall; exact absurd hcall (List.not_mem_nil _)
  · rw [if_neg h1] at hcall
    by_cases h2 : modbusCRC request (n - 2) ≠ modbusRLE request (n - 2)
    · rw [if_pos h2] at hcall; exact absurd hcall (List.not_mem_nil _)
    · rw [if_neg h2] at hcall
      by_cases h3 : modbusCRC response (m - 2) ≠ modbusRLE response (m - 2)
      · rw [if_pos h3] at hcall; exact absurd hcall (List.not_mem_nil _)
      · rw [if_neg h3] at hcall
        by_cases h4 : request.getD 0 0 = 0 ∨ request.getD 0 0 ≠ response.getD 0 0
        · rw [if_pos h4] at hcall; exact absurd hcall (List.not_mem_nil _)
        · rw [if_neg h4] at hcall
          obtain ⟨e1, e2, e3, e4⟩ := parseResponsePDU_handler_arguments status _ _ _ _ _
            j f rq rqLen rs rsLen hcall
          have hln : (n - 3) % 256 ≤ n - 3 := Nat.mod_le _ _
          have hlm : (m - 3) % 256 ≤ m - 3 := Nat.mod_le _ _
          subst e2 e4
          exact ⟨⟨e1, by omega⟩, ⟨e3, by omega⟩⟩

/-- A handler called in the course of `modbusParseResponseTCP` receives views that start
at byte 7 of the frames and end within them. -/
theorem parseResponseTCP_handler_arguments (status : ModbusMaster)
    (request : List Nat) (n : Nat) (response : List Nat) (m : Nat)
    (j f : Nat) (rq : List Nat) (rqLen : Nat) (rs : List Nat) (rsLen : Nat)
    (hcall : Call.handler j f rq rqLen rs rsLen
      ∈ (modbusParseResponseTCP status request n response m).2) :
    (rq = pduView request 7 rqLen ∧ 7 + rqLen ≤ n) ∧
    (rs = pduView response 7 rsLen ∧ 7 + rsLen ≤ m) := by
  unfold modbusParseResponseTCP at hcall
  by_cases h1 : n < 8 ∨ m < 8
  · rw [if_pos h1] at hcall; exact absurd hcall (List.not_mem_nil _)
  · rw [if_neg h1] at hcall
    by_cases h2 : modbusRBE request 2 ≠ 0 ∨ modbusRBE response 0 ≠ 0
    · rw [if_pos h2] at hcall; exact absurd hcall (List.not_mem_nil _)
    · rw [if_neg h2] at hcall
      by_cases h3 : modbusRBE request 0 ≠ modbusRBE response 0
      · rw [if_pos h3] at hcall; exact absurd hcall (List.not_mem_nil _)
      · rw [if_neg h3] at hcall
        by_cases h4 : modbusRBE request 4 ≠ n - 6 ∨ modbusRBE response 4 ≠ m - 6
        · rw [if_pos h4] at hcall; exact absurd hcall (List.not_mem_nil _)
        · rw [if_neg h4] at hcall
          obtain ⟨e1, e2, e3, e4⟩ := parseResponsePDU_handler_arguments status _ _ _ _ _
            j f rq rqLen rs rsLen hcall
          have hln : (n - 7) % 256 ≤ n - 7 := Nat.mod_le _ _
          have hlm : (m - 7) % 256 ≤ m - 7 := Nat.mod_le _ _
          subst e2 e4
          exact ⟨⟨e1, by omega⟩, ⟨e3, by omega⟩⟩

/-- C20. For a request buffer of exactly `n` bytes and a response buffer of exactly `m`
bytes, whatever `n` and `m` (0 to 3 and 0 to 7 included): the traced functions return what
the parsing functions return, and every position they read (function code, exception
code, address, CRC-covered range and CRC trailer, MBAP header fields) lies inside the
buffer it is read from, for `modbusParseResponsePDU`, `modbusParseResponseRTU` and
`modbusParseResponseTCP` alike. The views handed to the PDU-level parser (offset 1 or 7,
passed length `(n - 3) % 256` or `(n - 7) % 256`) lie inside the frames, and every handler
called receives exactly such a view of each frame. -/
theorem parse_reads_within_bounds (status : ModbusMaster) (a : Nat)
    (request response : List Nat) (n m : Nat)
    (hrequest : request.length = n) (hresponse : response.length = m) :
    ((tracedParseResponsePDU status a request n response m).1
        = modbusParseResponsePDU status a request n response m ∧
      (tracedParseResponseRTU status request n response m).1
        = modbusParseResponseRTU status request n response m ∧
      (tracedParseResponseTCP status request n response m).1
        = modbusParseResponseTCP status request n response m) ∧
    ((∀ i ∈ (tracedParseResponsePDU status a request n response m).2.1, i < request.length) ∧
      (∀ i ∈ (tracedParseResponsePDU status a request n response m).2.2,
        i < response.length)) ∧
    ((∀ i ∈ (tracedParseResponseRTU status request n response m).2.1, i < request.length) ∧
      (∀ i ∈ (tracedParseResponseRTU status request n response m).2.2,
        i < response.length)) ∧
    ((∀ i ∈ (tracedParseResponseTCP status request n response m).2.1, i < request.length) ∧
      (∀ i ∈ (tracedParseResponseTCP status request n response m).2.2,
        i < response.length)) ∧
    ((4 ≤ n → 1 + (n - 3) % 256 + 2 ≤ request.length) ∧
      (4 ≤ m → 1 + (m - 3) % 256 + 2 ≤ response.length) ∧
      (8 ≤ n → 7 + (n - 7) % 256 ≤ request.length) ∧
      (8 ≤ m → 7 + (m - 7) % 256 ≤ response.length)) ∧
    (∀ j f rq rqLen rs rsLen,
      Call.handler j f rq rqLen rs rsLen
          ∈ (modbusParseResponseRTU status request n response m).2 →
        (rq = pduView request 1 rqLen ∧ 1 + rqLen + 2 ≤ request.length) ∧
        (rs = pduView response 1 rsLen ∧ 1 + rsLen + 2 ≤ response.length)) ∧
    (∀ j f rq rqLen rs rsLen,
      Call.handler j f rq rqLen rs rsLen
          ∈ (modbusParseResponseTCP status request n response m).2 →
        (rq = pduView request 7 rqLen ∧ 7 + rqLen ≤ request.length) ∧
        (rs = pduView response 7 rsLen ∧ 7 + rsLen ≤ response.length)) := by
  rw [hrequest, hresponse]
  have hln3 : (n - 3) % 256 ≤ n - 3 := Nat.mod_le _ _
  have hlm3 : (m - 3) % 256 ≤ m - 3 := Nat.mod_le _ _
  have hln7 : (n - 7) % 256 ≤ n - 7 := Nat.mod_le _ _
  have hlm7 : (m - 7) % 256 ≤ m - 7 := Nat.mod_le _ _
  refine ⟨⟨tracedParseResponsePDU_result status a request n response m,
      tracedParseResponseRTU_result status request n response m,
      tracedParseResponseTCP_result status request n response m⟩,
    tracedParseResponsePDU_reads status a request n response m,
    tracedParseResponseRTU_reads status request n response m,
    tracedParseResponseTCP_reads status request n response m,
    ⟨fun h => by omega, fun h => by omega, fun h => by omega, fun h => by omega⟩,
    fun j f rq rqLen rs rsLen hcall =>
      parseResponseRTU_handler_arguments status request n response m j f rq rqLen rs rsLen
        hcall,
    fun j f rq rqLen rs rsLen hcall =>
      parseResponseTCP_handler_arguments status request n response m j f rq rqLen rs rsLen
        hcall⟩

set_option maxRecDepth 100000 in
theorem readExchange_last_reads :
    7 ∈ (tracedParseResponseRTU tableMaster readRequest 8 readResponse 7).2.1 ∧
    6 ∈ (tracedParseResponseRTU tableMaster readRequest 8 readResponse 7).2.2 := by
  decide

/-- C20 (witness). A valid RTU exchange: the last position read is that of the second CRC
byte, position 7 of the 8-byte request and position 6 of the 7-byte response; and a call
on empty buffers, which reads nothing. -/
theorem parse_reads_within_bounds_witness :
    (readRequest.length = 8 ∧ readResponse.length = 7 ∧
      7 ∈ (tracedParseResponseRTU tableMaster readRequest 8 readResponse 7).2.1 ∧
      6 ∈ (tracedParseResponseRTU tableMaster readRequest 8 readResponse 7).2.2) ∧
    (7 < readRequest.length ∧ 6 < readResponse.length) ∧
    (tracedParseResponseRTU tableMaster [] 0 [] 0).2 = ([], []) :=
  ⟨⟨rfl, rfl, readExchange_last_reads.1, readExchange_last_reads.2⟩,
    ⟨(parse_reads_within_bounds tableMaster 0 readRequest readResponse 8 7 rfl rfl).2.2.1.1
        7 readExchange_last_reads.1,
      (parse_reads_within_bounds tableMaster 0 readRequest readResponse 8 7 rfl rfl).2.2.1.2
        6 readExchange_last_reads.2⟩,
    rfl⟩

end Lightmodbus
